import Mathlib

set_option maxHeartbeats 4000000
set_option maxRecDepth 100000

/-! HeadTracker channel framing: SBUS codec and frame parser, trainer frame encoder, link
mode controller.

A shallow embedding of `firmware/src/src/SBUS/sbus.cpp`,
`firmware/src/src/targets/nrf52/btparahead.cpp` and `firmware/src/src/targets/nrf52/ble.cpp`.

* Bytes (`uint8_t`) and channel words (`uint16_t`) are natural numbers; every
  narrowing store of the source is written as an explicit `% 256` or `% 65536`.
* Arrays are lists, read with `List.getD _ _ 0` and written with `List.set`.
* The serial input (`AuxSerial_Read(&cur_byte_, 1)`) is the list of bytes still
  pending; reading one byte removes the head of that list.
* The file-level variables `buf_`, `state_`, `prev_byte_` are the fields of
  `SbusRx`; `cur_byte_` is written and read inside one loop iteration only and
  is the bound variable `cur`.
-/

namespace HeadTracker

/-! ## Constants of sbus.cpp -/

def SBUS_FRAME_LEN : Nat := 25
def HEADER_ : Nat := 0x0F
def FOOTER_ : Nat := 0x00
def FOOTER2_ : Nat := 0x04
def CH17_ : Nat := 0x01
def CH18_ : Nat := 0x02
def LOST_FRAME_ : Nat := 0x04
def FAILSAFE_ : Nat := 0x08

/-- The four file-level flags `failsafe_`, `lost_frame_`, `ch17_`, `ch18_`. -/
structure SbusFlags where
  failsafe_ : Bool
  lost_frame_ : Bool
  ch17_ : Bool
  ch18_ : Bool
deriving DecidableEq

/-- Initial value of the flags: `failsafe_ = false, lost_frame_ = false, ch17_ = false,
ch18_ = false`. -/
def SbusFlags.init : SbusFlags :=
  { failsafe_ := false, lost_frame_ := false, ch17_ := false, ch18_ := false }

/-- The constants of `TrackerSettings` that sbus.cpp uses. Their declarations
(trackersettings.h) are not among the sources, so they are parameters.
`sbusToPpm raw` stands for the value that the float expression
`(((float)raw - SBUS_CENTER) / SBUS_SCALE) + PPM_CENTER` has once it is
converted for the store into the `uint16_t` slot. -/
structure TrackerSettings where
  MIN_PWM : Nat
  MAX_PWM : Nat
  PPM_CENTER : Nat
  sbusToPpm : Nat → Nat

/-! ## SBUS_TX_BuildData -/

/-- The 25 bytes `SBUS_TX_BuildData` writes into `localTXBuffer`, `buf_[0]` first.
`static_cast<uint8_t>` is `% 256`. -/
def SBUS_TX_BuildData (fl : SbusFlags) (ch_ : List Nat) : List Nat :=
  let c : Nat → Nat := fun i => ch_.getD i 0
  [ HEADER_,
    (c 0 &&& 0x07FF) % 256,
    (((c 0 &&& 0x07FF) >>> 8) ||| ((c 1 &&& 0x07FF) <<< 3)) % 256,
    (((c 1 &&& 0x07FF) >>> 5) ||| ((c 2 &&& 0x07FF) <<< 6)) % 256,
    ((c 2 &&& 0x07FF) >>> 2) % 256,
    (((c 2 &&& 0x07FF) >>> 10) ||| ((c 3 &&& 0x07FF) <<< 1)) % 256,
    (((c 3 &&& 0x07FF) >>> 7) ||| ((c 4 &&& 0x07FF) <<< 4)) % 256,
    (((c 4 &&& 0x07FF) >>> 4) ||| ((c 5 &&& 0x07FF) <<< 7)) % 256,
    ((c 5 &&& 0x07FF) >>> 1) % 256,
    (((c 5 &&& 0x07FF) >>> 9) ||| ((c 6 &&& 0x07FF) <<< 2)) % 256,
    (((c 6 &&& 0x07FF) >>> 6) ||| ((c 7 &&& 0x07FF) <<< 5)) % 256,
    ((c 7 &&& 0x07FF) >>> 3) % 256,
    (c 8 &&& 0x07FF) % 256,
    (((c 8 &&& 0x07FF) >>> 8) ||| ((c 9 &&& 0x07FF) <<< 3)) % 256,
    (((c 9 &&& 0x07FF) >>> 5) ||| ((c 10 &&& 0x07FF) <<< 6)) % 256,
    ((c 10 &&& 0x07FF) >>> 2) % 256,
    (((c 10 &&& 0x07FF) >>> 10) ||| ((c 11 &&& 0x07FF) <<< 1)) % 256,
    (((c 11 &&& 0x07FF) >>> 7) ||| ((c 12 &&& 0x07FF) <<< 4)) % 256,
    (((c 12 &&& 0x07FF) >>> 4) ||| ((c 13 &&& 0x07FF) <<< 7)) % 256,
    ((c 13 &&& 0x07FF) >>> 1) % 256,
    (((c 13 &&& 0x07FF) >>> 9) ||| ((c 14 &&& 0x07FF) <<< 2)) % 256,
    (((c 14 &&& 0x07FF) >>> 6) ||| ((c 15 &&& 0x07FF) <<< 5)) % 256,
    ((c 15 &&& 0x07FF) >>> 3) % 256,
    (0x00 ||| (fl.ch17_.toNat * CH17_) ||| (fl.ch18_.toNat * CH18_) |||
      (fl.failsafe_.toNat * FAILSAFE_) ||| (fl.lost_frame_.toNat * LOST_FRAME_)) % 256,
    FOOTER_ ]

/-! ## SBUS_Read_Data: channel extraction, scaling, clamping -/

/-- The sixteen shift/mask expressions of `SBUS_Read_Data` (lines `ch_[0] = ...` to
`ch_[15] = ...`), before scaling. `static_cast<int16_t>` followed by the store into a
`uint16_t` slot is `% 65536`. -/
def SBUS_extract (buf_ : List Nat) : List Nat :=
  let b : Nat → Nat := fun i => buf_.getD i 0
  [ (b 1 ||| ((b 2 <<< 8) &&& 0x07FF)) % 65536,
    ((b 2 >>> 3) ||| ((b 3 <<< 5) &&& 0x07FF)) % 65536,
    ((b 3 >>> 6) ||| ((b 4 <<< 2) ||| ((b 5 <<< 10) &&& 0x07FF))) % 65536,
    ((b 5 >>> 1) ||| ((b 6 <<< 7) &&& 0x07FF)) % 65536,
    ((b 6 >>> 4) ||| ((b 7 <<< 4) &&& 0x07FF)) % 65536,
    ((b 7 >>> 7) ||| ((b 8 <<< 1) ||| ((b 9 <<< 9) &&& 0x07FF))) % 65536,
    ((b 9 >>> 2) ||| ((b 10 <<< 6) &&& 0x07FF)) % 65536,
    ((b 10 >>> 5) ||| ((b 11 <<< 3) &&& 0x07FF)) % 65536,
    (b 12 ||| ((b 13 <<< 8) &&& 0x07FF)) % 65536,
    ((b 13 >>> 3) ||| ((b 14 <<< 5) &&& 0x07FF)) % 65536,
    ((b 14 >>> 6) ||| ((b 15 <<< 2) ||| ((b 16 <<< 10) &&& 0x07FF))) % 65536,
    ((b 16 >>> 1) ||| ((b 17 <<< 7) &&& 0x07FF)) % 65536,
    ((b 17 >>> 4) ||| ((b 18 <<< 4) &&& 0x07FF)) % 65536,
    ((b 18 >>> 7) ||| ((b 19 <<< 1) ||| ((b 20 <<< 9) &&& 0x07FF))) % 65536,
    ((b 20 >>> 2) ||| ((b 21 <<< 6) &&& 0x07FF)) % 65536,
    ((b 21 >>> 5) ||| ((b 22 <<< 3) &&& 0x07FF)) % 65536 ]

/-- One pass of the body of `for(int i=0; i < 16; i++)` in `SBUS_Read_Data`: the scaled
value is stored into the `uint16_t` slot, then clamped by the two `if`s in source order. -/
def SBUS_scale (cfg : TrackerSettings) (raw : Nat) : Nat :=
  let v0 := cfg.sbusToPpm raw % 65536
  let v1 := if v0 > cfg.MAX_PWM then cfg.MAX_PWM % 65536 else v0
  if v1 < cfg.MIN_PWM then cfg.MIN_PWM % 65536 else v1

/-- What `SBUS_Read_Data` stores into `ch_[0..15]` when `newdata` is set: extraction from
`buf_`, then the scaling loop. -/
def SBUS_decode (cfg : TrackerSettings) (buf_ : List Nat) : List Nat :=
  (SBUS_extract buf_).map (SBUS_scale cfg)

/-! ## SbusRx_Parse -/

/-- The parser variables `buf_[SBUS_FRAME_LEN]`, `state_`, `prev_byte_`. -/
structure SbusRx where
  buf_ : List Nat
  state_ : Nat
  prev_byte_ : Nat
deriving DecidableEq

/-- Values at program start: `buf_` zero-initialised, `state_ = 0`,
`prev_byte_ = FOOTER_`. -/
def SbusRx.init : SbusRx :=
  { buf_ := List.replicate SBUS_FRAME_LEN 0, state_ := 0, prev_byte_ := FOOTER_ }

/-- The body of `while (AuxSerial_Read(&cur_byte_, 1))` in `SbusRx_Parse`, run on the byte
`cur` just read. The second component is `some r` when the body leaves the function by
`return r` (the trailing `prev_byte_ = cur_byte_` is then not executed) and `none` when
the loop goes on with the next byte. -/
def SbusRx_step (s : SbusRx) (cur : Nat) : SbusRx × Option Bool :=
  if s.state_ = 0 then
    if cur = HEADER_ ∧ (s.prev_byte_ = FOOTER_ ∨ s.prev_byte_ &&& 0x0F = FOOTER2_) then
      ({ buf_ := s.buf_.set s.state_ cur, state_ := s.state_ + 1, prev_byte_ := cur }, none)
    else
      ({ buf_ := s.buf_, state_ := 0, prev_byte_ := cur }, none)
  else
    if s.state_ < SBUS_FRAME_LEN then
      ({ buf_ := s.buf_.set s.state_ cur, state_ := s.state_ + 1, prev_byte_ := cur }, none)
    else
      if s.buf_.getD (SBUS_FRAME_LEN - 1) 0 = FOOTER_ ∨
          s.buf_.getD (SBUS_FRAME_LEN - 1) 0 &&& 0x0F = FOOTER2_ then
        ({ buf_ := s.buf_, state_ := 0, prev_byte_ := s.prev_byte_ }, some true)
      else
        ({ buf_ := s.buf_, state_ := 0, prev_byte_ := s.prev_byte_ }, some false)

/-- One call of `SbusRx_Parse` with the bytes `input` pending on the serial port: the
returned flag, the parser variables afterwards and the bytes left unread. The loop ends
with `false` when no byte is pending. -/
def SbusRx_Parse : SbusRx → List Nat → Bool × SbusRx × List Nat
  | s, [] => (false, s, [])
  | s, cur :: rest =>
    match SbusRx_step s cur with
    | (s', some r) => (r, s', rest)
    | (s', none) => SbusRx_Parse s' rest

/-- The loop `while(SbusRx_Parse()) newdata = true;` of `SBUS_Read_Data`, with a bound on
the number of calls; `none` when the bound is used up before a call returns `false`. -/
def SBUS_Read_loop : Nat → SbusRx → List Nat → Bool → Option (Bool × SbusRx × List Nat)
  | 0, _, _, _ => none
  | fuel + 1, s, input, newdata =>
    match SbusRx_Parse s input with
    | (true, s', rest) => SBUS_Read_loop fuel s' rest true
    | (false, s', rest) => some (newdata, s', rest)

/-- Result of one call of `SBUS_Read_Data`: `chs = some v` when it returns `true` having
stored `v` into `ch_[0..15]`, `chs = none` when it returns `false` and leaves `ch_`
alone; `rx` are the parser variables afterwards, `rest` the bytes left unread. -/
structure ReadResult where
  chs : Option (List Nat)
  rx : SbusRx
  rest : List Nat

/-- One call of `SBUS_Read_Data` (the DEBUG blocks left out). Every call of `SbusRx_Parse`
that returns `true` has read at least one byte, so `input.length + 1` calls suffice. -/
def SBUS_Read_Data (cfg : TrackerSettings) (s : SbusRx) (input : List Nat) :
    Option ReadResult :=
  match SBUS_Read_loop (input.length + 1) s input false with
  | none => none
  | some (newdata, s', rest) =>
    if newdata then some { chs := some (SBUS_decode cfg s'.buf_), rx := s', rest := rest }
    else some { chs := none, rx := s', rest := rest }

/-- The parser variables after the bytes of `bs` have been read one by one, however the
reads are spread over calls of `SbusRx_Parse`. -/
def SbusRx_feed (s : SbusRx) (bs : List Nat) : SbusRx :=
  bs.foldl (fun st b => (SbusRx_step st b).1) s

/-- The `return` events of the loop body while the bytes of `bs` are read one by one from
state `s`: entry `k` is `some true` when byte `k` made `SbusRx_Parse` return `true` (a
frame is reported), `some false` when it returned `false`, `none` when it went on. -/
def SbusRx_events : SbusRx → List Nat → List (Option Bool)
  | _, [] => []
  | s, b :: bs => (SbusRx_step s b).2 :: SbusRx_events (SbusRx_step s b).1 bs

/-- The frame buffers reported while the bytes of `bs` are read one by one from state `s`:
the content of `buf_` at each `return true`. -/
def SbusRx_frames : SbusRx → List Nat → List (List Nat)
  | _, [] => []
  | s, b :: bs =>
    if (SbusRx_step s b).2 = some true then
      (SbusRx_step s b).1.buf_ :: SbusRx_frames (SbusRx_step s b).1 bs
    else SbusRx_frames (SbusRx_step s b).1 bs

/-- A byte that `SbusRx_Parse` takes for a frame terminator. -/
def validFooter (b : Nat) : Bool := b == FOOTER_ || (b &&& 0x0F) == FOOTER2_

/-- A 25-byte frame with header `0x0F` and a legal terminator. -/
def wellFormed (f : List Nat) : Prop :=
  f.length = 25 ∧ (∀ b ∈ f, b < 256) ∧ f.getD 0 0 = HEADER_ ∧ validFooter (f.getD 24 0) = true

instance (f : List Nat) : Decidable (wellFormed f) := by
  unfold wellFormed; infer_instance

/-! ## The bit-string reading of the packed channel bytes

The definitions of this section follow the wording of the specification ("an 11-bit field
packed across byte boundaries starting at byte offset 1, least-significant-bit-first");
they are compared with `SBUS_extract`, which follows the source. -/

/-- The eight bits of a byte, least significant first. -/
def byteBits (b : Nat) : List Bool :=
  [b.testBit 0, b.testBit 1, b.testBit 2, b.testBit 3, b.testBit 4, b.testBit 5, b.testBit 6,
   b.testBit 7]

/-- The bit string made of bytes 1..22 of a buffer, each byte least significant bit first. -/
def sbusBitString (buf : List Nat) : List Bool :=
  ((buf.drop 1).take 22).flatMap byteBits

/-- The number a list of bits denotes, first bit least significant. -/
def bitsValue : List Bool → Nat
  | [] => 0
  | b :: bs => b.toNat + 2 * bitsValue bs

/-- The bits `11*i .. 11*i+10` of the bit string of a buffer. -/
def sbusWindow (buf : List Nat) (i : Nat) : List Bool :=
  ((sbusBitString buf).drop (11 * i)).take 11

/-- The 11-bit field number `i` of a buffer: the number its bit window denotes. -/
def sbusField (buf : List Nat) (i : Nat) : Nat :=
  bitsValue (sbusWindow buf i)

/-! ## Example settings -/

/-- An instance of the settings for evaluating the decoder on concrete frames:
`MIN_PWM = 988`, `MAX_PWM = 2012`, `PPM_CENTER = 1500`, `SBUS_CENTER = 992` and
`SBUS_SCALE = 1.6`, the values of the upstream firmware. The float expression is computed
exactly, `(raw - 992) / 1.6 + 1500 = ((raw - 992) * 5 + 1500 * 8) / 8`, and truncated
toward zero as the conversion to an integer type does (a negative result gives 0). -/
def exampleSettings : TrackerSettings :=
  { MIN_PWM := 988
    MAX_PWM := 2012
    PPM_CENTER := 1500
    sbusToPpm := fun raw => Int.toNat (Int.tdiv (((raw : Int) - 992) * 5 + 1500 * 8) 8) }

/-! ## Example frames -/

/-- A well-formed frame: header, all data bytes zero, flag byte zero, footer `0x00`. -/
def frameA : List Nat := 0x0F :: List.replicate 24 0

/-- A well-formed frame whose first channel field is 2047 and whose other fields are 0. -/
def frameB : List Nat := [0x0F, 0xFF, 0x07] ++ List.replicate 22 0

/-- A frame with header `0x0F` and the illegal terminator `0x55`. -/
def frameBad : List Nat := 0x0F :: (List.replicate 23 0 ++ [0x55])

/-- The content of `buf_` after `frameA`, one more byte, and then the first three bytes
`0x0F, 0xFF, 0xFF` of a further frame have been read: bytes 0..2 of the unfinished frame
over bytes 3..24 of `frameA`. -/
def tornBuf : List Nat := 0x0F :: 0xFF :: 0xFF :: List.replicate 22 0

/-! ## The flags and SBUS_Read_Data -/

/-- The file-level variables of sbus.cpp within reach of `SBUS_Read_Data`: the parser
variables and the four flags. -/
structure SbusVars where
  rx : SbusRx
  fl : SbusFlags

/-- Values at program start. -/
def SbusVars.init : SbusVars := { rx := SbusRx.init, fl := SbusFlags.init }

/-- One call of `SBUS_Read_Data` on the parser variables and the flags. The body of the
function contains no assignment to `failsafe_`, `lost_frame_`, `ch17_` or `ch18_` (the
constants `CH17_MASK_`, `CH18_MASK_`, `LOST_FRAME_MASK_`, `FAILSAFE_MASK_` are declared and
used nowhere), so the flags are handed back as they were. -/
def SBUS_Read_Data_vars (cfg : TrackerSettings) (g : SbusVars) (input : List Nat) :
    Option (ReadResult × SbusFlags) :=
  match SBUS_Read_Data cfg g.rx input with
  | none => none
  | some r => some (r, g.fl)

/-- The flags that the specification reads off the byte at offset 23: bit 0 is ch17, bit 1
ch18, bit 2 lost-frame, bit 3 failsafe. -/
def flagsOfByte (b : Nat) : SbusFlags :=
  { failsafe_ := b.testBit 3, lost_frame_ := b.testBit 2, ch17_ := b.testBit 0,
    ch18_ := b.testBit 1 }

/-- A well-formed frame with all channel bytes zero and the failsafe bit (bit 3) set in the
byte at offset 23. -/
def frameFailsafe : List Nat := 0x0F :: (List.replicate 22 0 ++ [0x08, 0x00])

/-! ## Trainer frame: pushByte and setTrainer (btparahead.cpp) -/

def START_STOP : Nat := 0x7E
def BYTE_STUFF : Nat := 0x7D
def STUFF_MASK : Nat := 0x20

/-- Modelled from the spec: the constant `BT_CHANNELS`, whose declaration is not among the
sources. The specification has 16 channels, packed as 8 pairs. -/
def BT_CHANNELS : Nat := 16

/-- The file-level variables `buffer`, `bufferIndex`, `crc`. The array `buffer` has
`BLUETOOTH_LINE_LENGTH + 1` bytes; that constant is not among the sources, so the length of
the list stands for it. -/
structure TrainerBuf where
  buffer : List Nat
  bufferIndex : Nat
  crc : Nat
deriving DecidableEq

/-- The variables at program start, for a given `BLUETOOTH_LINE_LENGTH`. -/
def TrainerBuf.init (lineLength : Nat) : TrainerBuf :=
  { buffer := List.replicate (lineLength + 1) 0, bufferIndex := 0, crc := 0 }

/-- The statement `buffer[bufferIndex++] = b`. The source has no bound check; a write at an
index outside the array has no defined result and is `none` here. `bufferIndex` is a
`uint8_t`. -/
def TrainerBuf.put (t : TrainerBuf) (b : Nat) : Option TrainerBuf :=
  if t.bufferIndex < t.buffer.length then
    some { buffer := t.buffer.set t.bufferIndex b, bufferIndex := (t.bufferIndex + 1) % 256,
           crc := t.crc }
  else none

/-- The function `pushByte(uint8_t byte)`. -/
def pushByte (t : TrainerBuf) (byte : Nat) : Option TrainerBuf :=
  let t1 : TrainerBuf :=
    { buffer := t.buffer, bufferIndex := t.bufferIndex, crc := (t.crc ^^^ byte) % 256 }
  if byte = START_STOP ∨ byte = BYTE_STUFF then
    (t1.put BYTE_STUFF).bind fun t2 => t2.put ((byte ^^^ STUFF_MASK) % 256)
  else t1.put byte

/-- The three bytes that one pass of the loop of `setTrainer` hands to `pushByte`, each
converted to `uint8_t`, for the pair `chan_vals[channel]`, `chan_vals[channel+1]`. -/
def trainerTriple (chan_vals : List Nat) (channel : Nat) : List Nat :=
  let channelValue1 := chan_vals.getD channel 0
  let channelValue2 := chan_vals.getD (channel + 1) 0
  [ (channelValue1 &&& 0x00ff) % 256,
    (((channelValue1 &&& 0x0f00) >>> 4) + ((channelValue2 &&& 0x00f0) >>> 4)) % 256,
    (((channelValue2 &&& 0x000f) <<< 4) + ((channelValue2 &&& 0x0f00) >>> 8)) % 256 ]

/-- The calls of `pushByte` on a list of bytes, in order. -/
def pushBytes : TrainerBuf → List Nat → Option TrainerBuf
  | t, [] => some t
  | t, b :: bs => (pushByte t b).bind fun t1 => pushBytes t1 bs

/-- The loop `for (int channel=0; channel < BT_CHANNELS; channel+=2, cur+=3)` of
`setTrainer`: `n` passes starting at `channel`. -/
def setTrainer_loop (chan_vals : List Nat) : Nat → Nat → TrainerBuf → Option TrainerBuf
  | 0, _, t => some t
  | n + 1, channel, t =>
    (pushBytes t (trainerTriple chan_vals channel)).bind fun t3 =>
      setTrainer_loop chan_vals n (channel + 2) t3

/-- What one call of `setTrainer` leaves behind: the variables, the bytes copied to `addr`
by `memcpy(addr,buffer,bufferIndex)`, and the returned length. -/
structure TrainerOut where
  tb : TrainerBuf
  addr : List Nat
  len : Nat
deriving DecidableEq

/-- The function `setTrainer(uint8_t *addr)` on the channel array `chan_vals`. The loop
runs `(BT_CHANNELS + 1) / 2` times. The result is `none` when a write falls outside
`buffer`. -/
def setTrainer (chan_vals : List Nat) (t : TrainerBuf) : Option TrainerOut :=
  let t0 : TrainerBuf := { buffer := t.buffer, bufferIndex := 0, crc := 0x00 }
  (t0.put START_STOP).bind fun t1 =>
  (pushByte t1 0x80).bind fun t2 =>
  (setTrainer_loop chan_vals ((BT_CHANNELS + 1) / 2) 0 t2).bind fun t3 =>
  (t3.put t3.crc).bind fun t4 =>
  (t4.put START_STOP).bind fun t5 =>
  some { tb := t5, addr := t5.buffer.take t5.bufferIndex, len := t5.bufferIndex }

/-- The bytes `out` are what has been written so far: `bufferIndex` counts them and they
are the start of `buffer`. -/
def Emitted (t : TrainerBuf) (out : List Nat) : Prop :=
  t.bufferIndex = out.length ∧ t.buffer.take out.length = out

/-- The bytes handed to `pushByte` by `n` passes of the loop of `setTrainer` from
`channel` on. -/
def trainerLoopBytes (chan_vals : List Nat) : Nat → Nat → List Nat
  | 0, _ => []
  | n + 1, channel =>
    trainerTriple chan_vals channel ++ trainerLoopBytes chan_vals n (channel + 2)

/-! ## The trainer frame in the words of the specification -/

/-- The stuffed image of a payload byte: `0x7E` and `0x7D` become `0x7D` followed by the
byte XOR `0x20`, every other byte stays as it is. -/
def stuffed (b : Nat) : List Nat :=
  if b = 0x7E ∨ b = 0x7D then [0x7D, b ^^^ 0x20] else [b]

/-- The three packed bytes of the channel pair `(c0, c1)`. -/
def packPair (c0 c1 : Nat) : List Nat :=
  [ c0 &&& 0xFF,
    ((c0 &&& 0x0F00) >>> 4) ||| ((c1 &&& 0x00F0) >>> 4),
    ((c1 &&& 0x000F) <<< 4) ||| ((c1 &&& 0x0F00) >>> 8) ]

/-- The 24 packed channel bytes: the pairs `(ch[2k], ch[2k+1])`, `k = 0..7`, in order. -/
def packedChannels (ch : List Nat) : List Nat :=
  (List.range 8).flatMap fun k => packPair (ch.getD (2 * k) 0) (ch.getD (2 * k + 1) 0)

/-- The 25 unescaped payload bytes: the frame type `0x80`, then the packed channel bytes. -/
def trainerPayload (ch : List Nat) : List Nat := 0x80 :: packedChannels ch

/-- The XOR of a list of bytes. -/
def xorAll (l : List Nat) : Nat := l.foldl (fun a b => a ^^^ b) 0

/-- The frame of the specification: sentinel, stuffed payload, checksum over the unescaped
payload, sentinel. -/
def trainerFrame (ch : List Nat) : List Nat :=
  [0x7E] ++ (trainerPayload ch).flatMap stuffed ++ [xorAll (trainerPayload ch)] ++ [0x7E]

/-! ## Link mode controller (ble.cpp) and head-unit channel store (btparahead.cpp) -/

/-- Modelled from the spec: the enumeration `btmodet`, whose declaration (ble.h) is not among
the sources. The specification has the four link modes Disabled, HeadUnitBLE, RemoteBLE and
ScanOnly; they carry the names ble.cpp uses for them. -/
inductive btmodet where
  | BTDISABLE
  | BTPARAHEAD
  | BTPARARMT
  | BTSCANONLY
deriving DecidableEq

/-- The calls that leave the two source files: the start and stop hooks of the link
engines, the channel write handed to the remote engine, and the notification of the override
mask. `BTRmtStart`, `BTRmtStop` and `BTRmtSetChannel` belong to btpararmt.cpp, which is not
among the sources; a call of one of them is recorded and has no other effect here. -/
inductive BtCall where
  | BTHeadStart
  | BTHeadStop
  | BTRmtStart
  | BTRmtStop
  | BTRmtSetChannel (channel value : Nat)
  | notifyOverride (mask : Nat)
deriving DecidableEq

/-- The variables of ble.cpp and btparahead.cpp: `curmode`, `btscanonly`, `btThreadRun`,
`bleconnected`, `chan_vals`, `ovridech`, the static `lovch` of `BTHeadSetChannel`, the
trainer buffer variables, and the record `calls` of the calls made so far. -/
structure BtState where
  curmode : btmodet
  btscanonly : Bool
  btThreadRun : Bool
  bleconnected : Bool
  chan_vals : List Nat
  ovridech : Nat
  lovch : Nat
  tb : TrainerBuf
  calls : List BtCall
deriving DecidableEq

/-- Values at program start: `curmode = BTDISABLE`, the flags `false`, `chan_vals` zero,
`ovridech = 0xFFFF`, `lovch = 0xFFFF`, no call made. -/
def BtState.init (lineLength : Nat) : BtState :=
  { curmode := btmodet.BTDISABLE, btscanonly := false, btThreadRun := false,
    bleconnected := false, chan_vals := List.replicate BT_CHANNELS 0, ovridech := 0xFFFF,
    lovch := 0xFFFF, tb := TrainerBuf.init lineLength, calls := [] }

/-- The loop `for(int i=0;i < BT_CHANNELS;i++) chan_vals[i] = TrackerSettings::PPM_CENTER;`
of `BTHeadStart`; the store into a `uint16_t` slot is `% 65536`. -/
def centerAll (cfg : TrackerSettings) (chan_vals : List Nat) : List Nat :=
  (List.range BT_CHANNELS).foldl (fun cv i => cv.set i (cfg.PPM_CENTER % 65536)) chan_vals

/-- The function `BTHeadStart`. `advErr` tells whether `bt_le_adv_start` reports an error,
in which case the function returns before `crc = 0; bufferIndex = 0;`. -/
def BTHeadStart (cfg : TrackerSettings) (advErr : Bool) (s : BtState) : BtState :=
  let s1 : BtState :=
    { s with bleconnected := false, chan_vals := centerAll cfg s.chan_vals,
             calls := s.calls ++ [BtCall.BTHeadStart] }
  if advErr then s1
  else { s1 with tb := { buffer := s1.tb.buffer, bufferIndex := 0, crc := 0 } }

/-- The function `BTHeadStop`: among the variables kept here it writes `bleconnected`. -/
def BTHeadStop (s : BtState) : BtState :=
  { s with bleconnected := false, calls := s.calls ++ [BtCall.BTHeadStop] }

/-- A call of `BTRmtStart` (btpararmt.cpp). -/
def BTRmtStart (s : BtState) : BtState :=
  { s with calls := s.calls ++ [BtCall.BTRmtStart] }

/-- A call of `BTRmtStop` (btpararmt.cpp). -/
def BTRmtStop (s : BtState) : BtState :=
  { s with calls := s.calls ++ [BtCall.BTRmtStop] }

/-- The function `BTSetMode(btmodet mode)`. -/
def BTSetMode (cfg : TrackerSettings) (advErr : Bool) (mode : btmodet) (s : BtState) :
    BtState :=
  if mode = s.curmode then s
  else
    let s1 : BtState := { s with btThreadRun := false }
    let s2 : BtState :=
      match s1.curmode with
      | btmodet.BTPARAHEAD => BTHeadStop s1
      | btmodet.BTPARARMT => { BTRmtStop s1 with btscanonly := false }
      | btmodet.BTSCANONLY => { BTRmtStop s1 with btscanonly := false }
      | _ => s1
    let s3 : BtState :=
      match mode with
      | btmodet.BTPARAHEAD => BTHeadStart cfg advErr s2
      | btmodet.BTPARARMT => BTRmtStart { s2 with btscanonly := false }
      | btmodet.BTSCANONLY => BTRmtStart { s2 with btscanonly := true }
      | _ => s2
    { s3 with btThreadRun := true, curmode := mode }

/-- The function `BTGetMode`. -/
def BTGetMode (s : BtState) : btmodet := s.curmode

/-- The function `BTHeadSetChannel(int channel, const uint16_t value)`, for a channel index
that is not negative. `1u<<channel` is a 32-bit unsigned value and `~` its 32-bit complement;
the store into the `uint16_t` variable `ovridech` is `% 65536`. -/
def BTHeadSetChannel (cfg : TrackerSettings) (channel value : Nat) (s : BtState) : BtState :=
  if channel ≥ BT_CHANNELS then s
  else
    let s1 : BtState :=
      if value = 0 then
        { s with ovridech := (s.ovridech &&& (0xFFFFFFFF ^^^ (1 <<< channel))) % 65536,
                 chan_vals := s.chan_vals.set channel (cfg.PPM_CENTER % 65536) }
      else
        { s with ovridech := (s.ovridech ||| (1 <<< channel)) % 65536,
                 chan_vals := s.chan_vals.set channel value }
    let s2 : BtState :=
      if s1.lovch ≠ s1.ovridech then
        { s1 with calls := s1.calls ++ [BtCall.notifyOverride s1.ovridech] }
      else s1
    { s2 with lovch := s2.ovridech }

/-- The function `BTHeadGetChannel`: "Head BT does not return BT data". -/
def BTHeadGetChannel (_channel : Nat) : Nat := 0

/-- The function `BTGetChannel(int chno)`. `rmtGet` stands for `BTRmtGetChannel`
(btpararmt.cpp). -/
def BTGetChannel (rmtGet : Nat → Nat) (s : BtState) (chno : Nat) : Nat :=
  match s.curmode with
  | btmodet.BTPARAHEAD => BTHeadGetChannel chno
  | btmodet.BTPARARMT => rmtGet chno
  | btmodet.BTSCANONLY => 0
  | _ => 0

/-- The function `BTSetChannel(int channel, const uint16_t value)`. -/
def BTSetChannel (cfg : TrackerSettings) (channel value : Nat) (s : BtState) : BtState :=
  match s.curmode with
  | btmodet.BTPARAHEAD => BTHeadSetChannel cfg channel value s
  | btmodet.BTPARARMT => { s with calls := s.calls ++ [BtCall.BTRmtSetChannel channel value] }
  | _ => s

/-! ## The hooks of a mode and the history of a channel, in the words of the specification -/

/-- The stop hook of the link engine of a mode: `BTHeadStop` for HeadUnitBLE, `BTRmtStop` for
RemoteBLE and for ScanOnly, none for Disabled. -/
def stopHook : btmodet → List BtCall
  | btmodet.BTPARAHEAD => [BtCall.BTHeadStop]
  | btmodet.BTPARARMT => [BtCall.BTRmtStop]
  | btmodet.BTSCANONLY => [BtCall.BTRmtStop]
  | btmodet.BTDISABLE => []

/-- The start hook of the link engine of a mode: `BTHeadStart` for HeadUnitBLE, `BTRmtStart`
for RemoteBLE and for ScanOnly, none for Disabled. -/
def startHook : btmodet → List BtCall
  | btmodet.BTPARAHEAD => [BtCall.BTHeadStart]
  | btmodet.BTPARARMT => [BtCall.BTRmtStart]
  | btmodet.BTSCANONLY => [BtCall.BTRmtStart]
  | btmodet.BTDISABLE => []

/-- An operation on the head-unit channel store: a start of the head link, or a
`setChannel` call. -/
inductive HeadOp where
  | start (advErr : Bool)
  | setChannel (channel value : Nat)
deriving DecidableEq

/-- The state after a sequence of head-unit operations. -/
def runHead (cfg : TrackerSettings) (s : BtState) (ops : List HeadOp) : BtState :=
  ops.foldl (fun st op =>
    match op with
    | HeadOp.start advErr => BTHeadStart cfg advErr st
    | HeadOp.setChannel channel value => BTHeadSetChannel cfg channel value st) s

/-- Whether channel `i` carries an externally supplied value after the operations `ops`, as
the specification reads it: its current value was written by a `setChannel` call with a
nonzero value after the last start. `b` is the answer before `ops`. -/
def suppliedAfter (i : Nat) (b : Bool) (ops : List HeadOp) : Bool :=
  ops.foldl (fun acc op =>
    match op with
    | HeadOp.start _ => false
    | HeadOp.setChannel channel value => if channel = i then decide (value ≠ 0) else acc) b

/-- Whether the most recent `setChannel` call for channel `i` in `ops` had a nonzero value;
`b` when `ops` has no such call. Starts are passed over. -/
def lastSetNonzero (i : Nat) (b : Bool) (ops : List HeadOp) : Bool :=
  ops.foldl (fun acc op =>
    match op with
    | HeadOp.start _ => acc
    | HeadOp.setChannel channel value => if channel = i then decide (value ≠ 0) else acc) b

/-! ## The sleep at the end of a pass of bt_Thread (ble.cpp) -/

/-- The number of binary digits of `n`, counted by halving; `fuel` bounds the number of
halvings. -/
def bitLengthAux : Nat → Nat → Nat
  | 0, _ => 0
  | fuel + 1, n => if n = 0 then 0 else bitLengthAux fuel (n / 2) + 1

/-- The number of binary digits of `n` (0 for 0). `n` halvings always suffice. -/
def bitLength (n : Nat) : Nat := bitLengthAux n n

/-- The rounding of `double` arithmetic (IEEE 754 binary64, round to nearest, ties to even)
on a natural number `N`: the nearest number with at most 53 significant binary digits. The
rounding of `N / 2 ^ k` is `roundDouble N / 2 ^ k`; the exponent range of the format is not
reached by the values of `bt_Thread`. -/
def roundDouble (N : Nat) : Nat :=
  let s := bitLength N - 53
  let q := N / 2 ^ s
  let r := N % 2 ^ s
  if 2 * r < 2 ^ s ∨ (2 * r = 2 ^ s ∧ q % 2 = 0) then q * 2 ^ s else (q + 1) * 2 ^ s

/-- The rounding `roundDouble` on integers of either sign; it is the conversion of an
integer to `double`. -/
def roundDoubleInt (z : Int) : Int :=
  if 0 ≤ z then (roundDouble z.toNat : Int) else -(roundDouble (-z).toNat : Int)

/-- The `double` literal `0.7` is `DOUBLE_0_7 / 2 ^ 53` (`0x1.6666666666666p-1`). -/
def DOUBLE_0_7 : Nat := 6305039478318694

/-- The argument of `rt_sleep_us` at the end of one pass of the loop of `bt_Thread`, for the
period `BT_PERIOD` (an integer constant whose declaration is not among the sources) and the
elapsed time `usduration = micros64() - usduration`, in microseconds. The test
`BT_PERIOD - usduration < BT_PERIOD * 0.7` is a comparison of `double` values: the left side
is the integer difference converted to `double`, the right side the rounded product of
`BT_PERIOD` converted to `double` and the literal `0.7`. Both sides are written in units of
`2 ^ -53`. Overflow of `int64_t` is left out. -/
def bt_Thread_sleep (BT_PERIOD usduration : Int) : Int :=
  if roundDoubleInt (BT_PERIOD - usduration) * 2 ^ 53
      < roundDoubleInt (roundDoubleInt BT_PERIOD * (DOUBLE_0_7 : Int)) then BT_PERIOD
  else BT_PERIOD - usduration

/-! ## The JSON command reader write_json (btparahead.cpp) -/

/-- The variables `blejsonbuffer` (an array of `JSON_BUF_SIZE` characters; the constant is
not among the sources, the length of the list stands for it) and `blejsonbufptr`, kept as
its offset from the start of `blejsonbuffer`. `processed` records the strings handed to
`JSON_Process`, oldest first. -/
structure JsonReader where
  blejsonbuffer : List Nat
  blejsonbufptr : Nat
  processed : List (List Nat)
deriving DecidableEq

/-- Values at program start: `blejsonbuffer = ""`, `blejsonbufptr = blejsonbuffer`. -/
def JsonReader.init (size : Nat) : JsonReader :=
  { blejsonbuffer := List.replicate size 0, blejsonbufptr := 0, processed := [] }

/-- A store of the character `c` at `blejsonbuffer + i`. A store outside the array has no
defined result and is `none` here. -/
def JsonReader.store (j : JsonReader) (i c : Nat) : Option JsonReader :=
  if i < j.blejsonbuffer.length then
    some { blejsonbuffer := j.blejsonbuffer.set i c, blejsonbufptr := j.blejsonbufptr,
           processed := j.processed }
  else none

/-- The C string that starts at a given place: the characters before the first NUL. -/
def cString (l : List Nat) : List Nat := l.takeWhile fun c => c != 0

/-- The body of the loop `for(int i=0; i < len; i++)` of `write_json` for the character
`sc`. `sizeof(blejsonbuffer) - 3` is the length of the list minus 3. -/
def write_json_char (j : JsonReader) (sc : Nat) : Option JsonReader :=
  if sc = 0x02 then
    JsonReader.store
      { blejsonbuffer := j.blejsonbuffer, blejsonbufptr := 1, processed := j.processed } 0 0x02
  else if sc = 0x03 then
    let r : Option JsonReader :=
      if j.blejsonbuffer.getD 0 0 = 0x02 then
        (j.store j.blejsonbufptr 0).bind fun j1 =>
          some { blejsonbuffer := j1.blejsonbuffer, blejsonbufptr := j1.blejsonbufptr,
                 processed := j1.processed ++ [cString (j1.blejsonbuffer.drop 1)] }
      else some j
    r.bind fun j2 =>
      JsonReader.store
        { blejsonbuffer := j2.blejsonbuffer, blejsonbufptr := 0, processed := j2.processed }
        0 0
  else
    if j.blejsonbufptr ≥ j.blejsonbuffer.length - 3 then
      JsonReader.store
        { blejsonbuffer := j.blejsonbuffer, blejsonbufptr := 0, processed := j.processed } 0 0
    else
      (j.store j.blejsonbufptr sc).bind fun j1 =>
        some { blejsonbuffer := j1.blejsonbuffer, blejsonbufptr := j1.blejsonbufptr + 1,
               processed := j1.processed }

/-- One call of `write_json` on the characters `buf[0..len-1]`. -/
def write_json : JsonReader → List Nat → Option JsonReader
  | j, [] => some j
  | j, sc :: rest => (write_json_char j sc).bind fun j1 => write_json j1 rest

/-- Several calls of `write_json` in a row, one per chunk. -/
def write_json_calls : JsonReader → List (List Nat) → Option JsonReader
  | j, [] => some j
  | j, chunk :: rest => (write_json j chunk).bind fun j1 => write_json_calls j1 rest

/-- A run of message characters: none of them is start-of-text or end-of-text. -/
def plainText (d : List Nat) : Prop := ∀ c ∈ d, c ≠ 0x02 ∧ c ≠ 0x03

instance (d : List Nat) : Decidable (plainText d) := by
  unfold plainText; infer_instance

/-! ## The trainer frame read back, in the words of the claim -/

/-- Every pair `0x7D, b` becomes the single byte `b XOR 0x20`. -/
def unstuff : List Nat → List Nat
  | [] => []
  | [b] => [b]
  | a :: b :: rest =>
    if a = 0x7D then (b ^^^ 0x20) :: unstuff rest else a :: unstuff (b :: rest)

/-- A 3-byte group `(b1, b2, b3)` read as the two channel values `c0`, `c1`. -/
def unpackPair (b1 b2 b3 : Nat) : List Nat :=
  [ b1 ||| ((b2 &&& 0xF0) <<< 4),
    (b3 >>> 4) ||| ((b2 &&& 0x0F) <<< 4) ||| ((b3 &&& 0x0F) <<< 8) ]

/-- The 3-byte groups of a byte list read one after the other. -/
def unpackGroups : List Nat → List Nat
  | b1 :: b2 :: b3 :: rest => unpackPair b1 b2 b3 ++ unpackGroups rest
  | _ => []

/-- The frame with its first byte and its last two bytes removed, unstuffed, the leading
`0x80` dropped, and the 3-byte groups read as channel values. -/
def trainerDecode (frame : List Nat) : List Nat :=
  unpackGroups ((unstuff ((frame.drop 1).dropLast.dropLast)).drop 1)

/-- The number of packed channel bytes that equal `0x7E` or `0x7D`. -/
def stuffCount (bs : List Nat) : Nat := bs.countP fun b => b == 0x7E || b == 0x7D

/-! ## The frame parser: where the loop body writes -/

/-- The index of `buf_` that the loop body of `SbusRx_Parse` writes for the byte `cur` in
state `s` (the statement `buf_[state_++] = cur_byte_` is reached with `state_ == 0` and an
accepted header, or with `0 < state_ < SBUS_FRAME_LEN`), `none` when it writes nothing. -/
def SbusRx_writeIndex (s : SbusRx) (cur : Nat) : Option Nat :=
  if s.state_ = 0 then
    if cur = HEADER_ ∧ (s.prev_byte_ = FOOTER_ ∨ s.prev_byte_ &&& 0x0F = FOOTER2_) then
      some s.state_
    else none
  else
    if s.state_ < SBUS_FRAME_LEN then some s.state_ else none

/-! ## The channels that are not overridden -/

/-- The channels whose mask bit is clear hold the centre value: kept by `BTHeadStart` and by
`BTHeadSetChannel`. -/
def Centred (cfg : TrackerSettings) (s : BtState) : Prop :=
  s.chan_vals.length = 16 ∧
  ∀ i, i < 16 → s.ovridech.testBit i = false → s.chan_vals.getD i 0 = cfg.PPM_CENTER % 65536


/-! ## Example inputs for the trainer frame -/

/-- A channel array whose 24 packed bytes all equal `0x7E`. -/
def chanAllStuffed : List Nat :=
  [0x77E, 0xEE7, 0x77E, 0xEE7, 0x77E, 0xEE7, 0x77E, 0xEE7, 0x77E, 0xEE7, 0x77E, 0xEE7, 0x77E,
   0xEE7, 0x77E, 0xEE7]

/-- A channel array with every value inside `[988, 2012]` in which each pair packs to the
bytes `0x7E, 0x7E, 0x04`: 16 of the 24 packed bytes are stuffed and the frame has 44 bytes. -/
def chanInRangeStuffed : List Nat :=
  [1918, 1248, 1918, 1248, 1918, 1248, 1918, 1248, 1918, 1248, 1918, 1248, 1918, 1248, 1918,
   1248]

/-! ## Auxiliary facts -/

theorem list_length_16 (l : List Nat) (h : l.length = 16) :
    ∃ a0 a1 a2 a3 a4 a5 a6 a7 a8 a9 a10 a11 a12 a13 a14 a15,
      l = [a0, a1, a2, a3, a4, a5, a6, a7, a8, a9, a10, a11, a12, a13, a14, a15] := by
  match l, h with
  | [a0, a1, a2, a3, a4, a5, a6, a7, a8, a9, a10, a11, a12, a13, a14, a15], _ =>
    exact ⟨a0, a1, a2, a3, a4, a5, a6, a7, a8, a9, a10, a11, a12, a13, a14, a15, rfl⟩

theorem list_length_25 (l : List Nat) (h : l.length = 25) :
    ∃ b0 b1 b2 b3 b4 b5 b6 b7 b8 b9 b10 b11 b12 b13 b14 b15 b16 b17 b18 b19 b20 b21 b22 b23
      b24, l = [b0, b1, b2, b3, b4, b5, b6, b7, b8, b9, b10, b11, b12, b13, b14, b15, b16, b17,
        b18, b19, b20, b21, b22, b23, b24] := by
  match l, h with
  | [b0, b1, b2, b3, b4, b5, b6, b7, b8, b9, b10, b11, b12, b13, b14, b15, b16, b17, b18, b19,
      b20, b21, b22, b23, b24], _ =>
    exact ⟨b0, b1, b2, b3, b4, b5, b6, b7, b8, b9, b10, b11, b12, b13, b14, b15, b16, b17, b18,
      b19, b20, b21, b22, b23, b24, rfl⟩

theorem pow_consts :
    (0x07FF : Nat) = 2 ^ 11 - 1 ∧ (256 : Nat) = 2 ^ 8 ∧ (65536 : Nat) = 2 ^ 16 := by
  norm_num

theorem map_mod_256 (l : List Nat) (h : ∀ b ∈ l, b < 256) : l.map (fun b => b % 256) = l := by
  induction l with
  | nil => rfl
  | cons a l ih =>
    have ha : a < 256 := h a (List.mem_cons_self a l)
    have hl : ∀ b ∈ l, b < 256 := fun b hb => h b (List.mem_cons_of_mem a hb)
    simp only [List.map_cons, ih hl, Nat.mod_eq_of_lt ha]

theorem bitsValue_testBit (bs : List Bool) (j : Nat) :
    (bitsValue bs).testBit j = bs.getD j false := by
  induction bs generalizing j with
  | nil => simp [bitsValue]
  | cons b bs ih =>
    cases j with
    | zero =>
      simp only [bitsValue, Nat.testBit_zero, List.getD_cons_zero]
      cases b <;> simp
    | succ j =>
      rw [Nat.testBit_succ, List.getD_cons_succ, ← ih j]
      congr 1
      simp only [bitsValue]
      cases b
      · simp
      · simp only [Bool.toNat_true]
        omega

theorem bitsValue_lt (bs : List Bool) : bitsValue bs < 2 ^ bs.length := by
  induction bs with
  | nil => simp [bitsValue]
  | cons b bs ih =>
    simp only [bitsValue, List.length_cons, pow_succ]
    cases b
    · simp only [Bool.toNat_false]
      omega
    · simp only [Bool.toNat_true]
      omega

/-- Extraction undoes packing, on explicit channel words. -/
theorem extract_build_explicit (fl : SbusFlags)
    (a0 a1 a2 a3 a4 a5 a6 a7 a8 a9 a10 a11 a12 a13 a14 a15 : Nat) :
    SBUS_extract (SBUS_TX_BuildData fl
        [a0, a1, a2, a3, a4, a5, a6, a7, a8, a9, a10, a11, a12, a13, a14, a15])
      = [a0 &&& 0x07FF, a1 &&& 0x07FF, a2 &&& 0x07FF, a3 &&& 0x07FF, a4 &&& 0x07FF,
         a5 &&& 0x07FF, a6 &&& 0x07FF, a7 &&& 0x07FF, a8 &&& 0x07FF, a9 &&& 0x07FF,
         a10 &&& 0x07FF, a11 &&& 0x07FF, a12 &&& 0x07FF, a13 &&& 0x07FF, a14 &&& 0x07FF,
         a15 &&& 0x07FF] := by
  simp only [SBUS_extract, SBUS_TX_BuildData, List.getD_cons_zero, List.getD_cons_succ,
    List.cons.injEq, and_true]
  refine ⟨?_, ?_, ?_, ?_, ?_, ?_, ?_, ?_, ?_, ?_, ?_, ?_, ?_, ?_, ?_, ?_⟩
  all_goals
    apply Nat.eq_of_testBit_eq
    intro j
    rw [pow_consts.1, pow_consts.2.1, pow_consts.2.2]
    simp only [Nat.testBit_mod_two_pow, Nat.testBit_or, Nat.testBit_and,
      Nat.testBit_shiftRight, Nat.testBit_shiftLeft, Nat.testBit_two_pow_sub_one]
    by_cases h : j < 16
    · interval_cases j <;> simp
    · have h' : ¬ j < 11 := by omega
      simp [h, h']

/-- Extraction undoes packing, as an equation of lists. -/
theorem extract_build (fl : SbusFlags) (ch : List Nat) (hlen : ch.length = 16) :
    SBUS_extract (SBUS_TX_BuildData fl ch) = ch.map (fun c => c &&& 0x07FF) := by
  obtain ⟨a0, a1, a2, a3, a4, a5, a6, a7, a8, a9, a10, a11, a12, a13, a14, a15, rfl⟩ :=
    list_length_16 ch hlen
  rw [extract_build_explicit]
  rfl

theorem and_2047_of_le (c : Nat) (h : c ≤ 2047) : c &&& 0x07FF = c := by
  rw [pow_consts.1, Nat.and_pow_two_sub_one_eq_mod]
  exact Nat.mod_eq_of_lt (by omega)

/-- Each extracted word is the field of its bit window, on explicit bytes. -/
theorem extract_field_explicit
    (b0 b1 b2 b3 b4 b5 b6 b7 b8 b9 b10 b11 b12 b13 b14 b15 b16 b17 b18 b19 b20 b21 b22 b23
      b24 : Nat) (i : Nat) (hi : i < 16) :
    (SBUS_extract ([b0, b1, b2, b3, b4, b5, b6, b7, b8, b9, b10, b11, b12, b13, b14, b15, b16,
        b17, b18, b19, b20, b21, b22, b23, b24].map (fun b => b % 256))).getD i 0
      = sbusField ([b0, b1, b2, b3, b4, b5, b6, b7, b8, b9, b10, b11, b12, b13, b14, b15, b16,
        b17, b18, b19, b20, b21, b22, b23, b24].map (fun b => b % 256)) i := by
  interval_cases i
  all_goals
    simp only [SBUS_extract, sbusField, sbusWindow, sbusBitString, byteBits, List.map,
      List.getD_cons_zero, List.getD_cons_succ, List.drop_succ_cons, List.drop_zero,
      List.take_succ_cons, List.take_zero, List.flatMap_cons, List.flatMap_nil,
      List.cons_append, List.nil_append, Nat.mul_zero, Nat.mul_one, Nat.reduceMul]
    apply Nat.eq_of_testBit_eq
    intro j
    rw [bitsValue_testBit]
    rw [pow_consts.1, pow_consts.2.1, pow_consts.2.2]
    simp only [Nat.testBit_mod_two_pow, Nat.testBit_or, Nat.testBit_and,
      Nat.testBit_shiftRight, Nat.testBit_shiftLeft, Nat.testBit_two_pow_sub_one]
    by_cases h : j < 16
    · interval_cases j <;> simp
    · obtain ⟨k, rfl⟩ : ∃ k, j = k + 11 := ⟨j - 11, by omega⟩
      simp [h]

theorem extract_field (buf : List Nat) (hlen : buf.length = 25) (hb : ∀ b ∈ buf, b < 256)
    (i : Nat) (hi : i < 16) : (SBUS_extract buf).getD i 0 = sbusField buf i := by
  obtain ⟨b0, b1, b2, b3, b4, b5, b6, b7, b8, b9, b10, b11, b12, b13, b14, b15, b16, b17, b18,
    b19, b20, b21, b22, b23, b24, rfl⟩ := list_length_25 buf hlen
  have h := extract_field_explicit b0 b1 b2 b3 b4 b5 b6 b7 b8 b9 b10 b11 b12 b13 b14 b15 b16
    b17 b18 b19 b20 b21 b22 b23 b24 i hi
  rw [map_mod_256 _ hb] at h
  exact h

theorem sbusField_le (buf : List Nat) (i : Nat) : sbusField buf i ≤ 2047 := by
  have h := bitsValue_lt (sbusWindow buf i)
  have hl : (sbusWindow buf i).length ≤ 11 := by
    simp only [sbusWindow, List.length_take]
    omega
  have hp : 2 ^ (sbusWindow buf i).length ≤ 2 ^ 11 := Nat.pow_le_pow_right (by norm_num) hl
  simp only [sbusField]
  omega

/-! ## Facts about the parser and the read loop -/

theorem SBUS_scale_range (cfg : TrackerSettings) (h1 : cfg.MIN_PWM ≤ cfg.MAX_PWM)
    (h2 : cfg.MAX_PWM < 65536) (raw : Nat) :
    cfg.MIN_PWM ≤ SBUS_scale cfg raw ∧ SBUS_scale cfg raw ≤ cfg.MAX_PWM := by
  have hmin : cfg.MIN_PWM % 65536 = cfg.MIN_PWM := Nat.mod_eq_of_lt (by omega)
  have hmax : cfg.MAX_PWM % 65536 = cfg.MAX_PWM := Nat.mod_eq_of_lt h2
  simp only [SBUS_scale, hmin, hmax]
  split_ifs <;> omega

theorem SbusRx_Parse_rest (s : SbusRx) (input : List Nat) :
    (SbusRx_Parse s input).2.2.length ≤ input.length ∧
    ((SbusRx_Parse s input).1 = true → (SbusRx_Parse s input).2.2.length < input.length) := by
  induction input generalizing s with
  | nil => simp [SbusRx_Parse]
  | cons cur rest ih =>
    rcases h : SbusRx_step s cur with ⟨s', _ | r⟩
    · have := ih s'
      simp only [SbusRx_Parse, h, List.length_cons]
      constructor
      · omega
      · intro ht; have := this.2 ht; omega
    · simp [SbusRx_Parse, h]

theorem SBUS_Read_loop_some (fuel : Nat) (s : SbusRx) (input : List Nat) (nd : Bool)
    (h : input.length < fuel) : ∃ r, SBUS_Read_loop fuel s input nd = some r := by
  induction fuel generalizing s input nd with
  | zero => omega
  | succ fuel ih =>
    rcases hP : SbusRx_Parse s input with ⟨b, s', rest⟩
    have hr := SbusRx_Parse_rest s input
    rw [hP] at hr
    cases b with
    | false => exact ⟨(nd, s', rest), by simp [SBUS_Read_loop, hP]⟩
    | true =>
      have hlt : rest.length < fuel := by
        have := hr.2 rfl
        simp only at this
        omega
      obtain ⟨r, hr'⟩ := ih s' rest true hlt
      exact ⟨r, by simp [SBUS_Read_loop, hP, hr']⟩

theorem SBUS_extract_length (buf : List Nat) : (SBUS_extract buf).length = 16 := rfl

theorem SbusRx_feed_cons (s : SbusRx) (x : Nat) (xs : List Nat) :
    SbusRx_feed s (x :: xs) = SbusRx_feed (SbusRx_step s x).1 xs := rfl

theorem SbusRx_feed_nil (s : SbusRx) : SbusRx_feed s [] = s := rfl

theorem SbusRx_feed_append (s : SbusRx) (xs ys : List Nat) :
    SbusRx_feed s (xs ++ ys) = SbusRx_feed (SbusRx_feed s xs) ys := by
  simp [SbusRx_feed, List.foldl_append]

theorem SbusRx_frames_append (s : SbusRx) (xs ys : List Nat) :
    SbusRx_frames s (xs ++ ys) = SbusRx_frames s xs ++ SbusRx_frames (SbusRx_feed s xs) ys := by
  induction xs generalizing s with
  | nil => rfl
  | cons x xs ih =>
    simp only [List.cons_append, SbusRx_frames, SbusRx_feed_cons]
    split_ifs <;> simp [ih]

theorem SbusRx_step_state_le (s : SbusRx) (b : Nat) :
    (SbusRx_step s b).1.state_ ≤ s.state_ + 1 := by
  unfold SbusRx_step
  split_ifs <;> simp

theorem SbusRx_step_no_return (s : SbusRx) (b : Nat) (h : s.state_ < 25) :
    (SbusRx_step s b).2 = none := by
  unfold SbusRx_step
  simp only [SBUS_FRAME_LEN]
  split_ifs <;> rfl

/-- No frame is reported while fewer than 26 bytes have been read since `state_` was 0. -/
theorem SbusRx_frames_short (s : SbusRx) (bs : List Nat) (h : s.state_ + bs.length ≤ 25) :
    SbusRx_frames s bs = [] := by
  induction bs generalizing s with
  | nil => rfl
  | cons b bs ih =>
    simp only [List.length_cons] at h
    have h1 := SbusRx_step_no_return s b (by omega)
    have h2 := SbusRx_step_state_le s b
    simp only [SbusRx_frames, h1]
    simp only [reduceCtorEq, if_false]
    exact ih _ (by omega)

theorem SbusRx_events_short (s : SbusRx) (bs : List Nat) (h : s.state_ + bs.length ≤ 25) :
    SbusRx_events s bs = List.replicate bs.length none := by
  induction bs generalizing s with
  | nil => rfl
  | cons b bs ih =>
    simp only [List.length_cons] at h
    have h1 := SbusRx_step_no_return s b (by omega)
    have h2 := SbusRx_step_state_le s b
    simp only [SbusRx_events, h1, List.length_cons, List.replicate_succ]
    rw [ih _ (by omega)]

/-- While no byte makes the loop body return, one call of `SbusRx_Parse` reads all pending
bytes and returns `false`. -/
theorem SbusRx_Parse_short (s : SbusRx) (bs : List Nat) (h : s.state_ + bs.length ≤ 25) :
    SbusRx_Parse s bs = (false, SbusRx_feed s bs, []) := by
  induction bs generalizing s with
  | nil => rfl
  | cons b bs ih =>
    simp only [List.length_cons] at h
    have h1 := SbusRx_step_no_return s b (by omega)
    have h2 := SbusRx_step_state_le s b
    rcases hs : SbusRx_step s b with ⟨s', r⟩
    rw [hs] at h1 h2
    simp only at h1 h2
    subst h1
    simp only [SbusRx_Parse, hs, SbusRx_feed_cons]
    exact ih _ (by omega)

theorem step_fill (buf : List Nat) (k p b : Nat) (h0 : k ≠ 0) (h : k < 25) :
    SbusRx_step (SbusRx.mk buf k p) b = (SbusRx.mk (buf.set k b) (k + 1) b, none) := by
  simp [SbusRx_step, h0, h, SBUS_FRAME_LEN]

theorem step_start (buf : List Nat) :
    SbusRx_step (SbusRx.mk buf 0 0) 0x0F = (SbusRx.mk (buf.set 0 0x0F) 1 0x0F, none) := by
  simp [SbusRx_step, HEADER_, FOOTER_]

/-- From the initial state, the 25 bytes of a frame that starts with the header fill
`buf_` and leave `state_` at 25. -/
theorem feed_frame (f : List Nat) (hlen : f.length = 25) (hh : f.getD 0 0 = HEADER_) :
    SbusRx_feed SbusRx.init f = SbusRx.mk f 25 (f.getD 24 0) := by
  obtain ⟨b0, b1, b2, b3, b4, b5, b6, b7, b8, b9, b10, b11, b12, b13, b14, b15, b16, b17, b18,
    b19, b20, b21, b22, b23, b24, rfl⟩ := list_length_25 f hlen
  simp only [List.getD_cons_zero, HEADER_] at hh
  subst hh
  simp [SbusRx.init, SbusRx_feed_cons, SbusRx_feed_nil, step_start, step_fill, SBUS_FRAME_LEN,
    FOOTER_]

/-- The byte read when `state_` is 25 ends the frame: the call returns whether `buf_[24]`
is a legal terminator, `state_` becomes 0, and the byte itself is stored nowhere. -/
theorem step_full (buf : List Nat) (p x : Nat) :
    SbusRx_step (SbusRx.mk buf 25 p) x
      = (SbusRx.mk buf 0 p, some (validFooter (buf.getD 24 0))) := by
  by_cases h : buf.getD 24 0 = FOOTER_ ∨ buf.getD 24 0 &&& 0x0F = FOOTER2_
  · have hv : validFooter (buf.getD 24 0) = true := by
      simpa [validFooter] using h
    rw [hv]
    simp only [SbusRx_step, SBUS_FRAME_LEN]
    rw [if_neg (by decide), if_neg (by decide), if_pos h]
  · have hv : validFooter (buf.getD 24 0) = false := by
      simpa [validFooter] using h
    rw [hv]
    simp only [SbusRx_step, SBUS_FRAME_LEN]
    rw [if_neg (by decide), if_neg (by decide), if_neg h]

/-! ## Claims about the codec -/

/-- Claim C1: for every array of 16 channel words, the channel extraction of
`SBUS_Read_Data` applied to the 25-byte frame written by `SBUS_TX_BuildData` yields
`ch[i] & 0x07FF` for every `i` in 0..15; hence words in 0..2047 come back unchanged. -/
theorem C1_extract_of_build (fl : SbusFlags) (ch : List Nat) (hlen : ch.length = 16) :
    (SBUS_TX_BuildData fl ch).length = 25 ∧
    (∀ i, i < 16 →
      (SBUS_extract (SBUS_TX_BuildData fl ch)).getD i 0 = ch.getD i 0 &&& 0x07FF) ∧
    ((∀ c ∈ ch, c ≤ 2047) → SBUS_extract (SBUS_TX_BuildData fl ch) = ch) := by
  refine ⟨rfl, ?_, ?_⟩
  · intro i hi
    rw [extract_build fl ch hlen]
    obtain ⟨a0, a1, a2, a3, a4, a5, a6, a7, a8, a9, a10, a11, a12, a13, a14, a15, rfl⟩ :=
      list_length_16 ch hlen
    interval_cases i <;> rfl
  · intro hc
    rw [extract_build fl ch hlen]
    calc ch.map (fun c => c &&& 0x07FF) = ch.map id :=
          List.map_congr_left (fun c hmem => and_2047_of_le c (hc c hmem))
      _ = ch := List.map_id ch

/-- Instance of C1 at a concrete channel array with words below and above 2047. -/
theorem C1_extract_of_build_witness :
    (SBUS_TX_BuildData SbusFlags.init
        [0, 1, 172, 992, 1811, 2047, 2048, 4095, 65535, 1500, 988, 2012, 7, 1024, 1023,
          43690]).length = 25 ∧
    (∀ i, i < 16 →
      (SBUS_extract (SBUS_TX_BuildData SbusFlags.init
        [0, 1, 172, 992, 1811, 2047, 2048, 4095, 65535, 1500, 988, 2012, 7, 1024, 1023,
          43690])).getD i 0
        = List.getD [0, 1, 172, 992, 1811, 2047, 2048, 4095, 65535, 1500, 988, 2012, 7, 1024,
            1023, 43690] i 0 &&& 0x07FF) ∧
    ((∀ c ∈ [0, 1, 172, 992, 1811, 2047, 2048, 4095, 65535, 1500, 988, 2012, 7, 1024, 1023,
          43690], c ≤ 2047) →
      SBUS_extract (SBUS_TX_BuildData SbusFlags.init
        [0, 1, 172, 992, 1811, 2047, 2048, 4095, 65535, 1500, 988, 2012, 7, 1024, 1023,
          43690])
        = [0, 1, 172, 992, 1811, 2047, 2048, 4095, 65535, 1500, 988, 2012, 7, 1024, 1023,
          43690]) :=
  C1_extract_of_build SbusFlags.init
    [0, 1, 172, 992, 1811, 2047, 2048, 4095, 65535, 1500, 988, 2012, 7, 1024, 1023, 43690]
    (by decide)

/-- Claim C2: for every 25-byte buffer and every `i` in 0..15 the raw word that
`SBUS_Read_Data` extracts for channel `i` is the 11-bit field made of bits
`11*i .. 11*i+10` of the bit string of bytes 1..22 read least significant bit first; it
lies in 0..2047 and is the same for any two buffers that agree on that bit window. -/
theorem C2_extract_is_bit_window (buf : List Nat) (hlen : buf.length = 25)
    (hb : ∀ b ∈ buf, b < 256) (i : Nat) (hi : i < 16) :
    (SBUS_extract buf).getD i 0 = sbusField buf i ∧
    (SBUS_extract buf).getD i 0 ≤ 2047 ∧
    (∀ buf2 : List Nat, buf2.length = 25 → (∀ b ∈ buf2, b < 256) →
      sbusWindow buf2 i = sbusWindow buf i →
      (SBUS_extract buf2).getD i 0 = (SBUS_extract buf).getD i 0) := by
  have h1 := extract_field buf hlen hb i hi
  refine ⟨h1, ?_, ?_⟩
  · rw [h1]
    exact sbusField_le buf i
  · intro buf2 hlen2 hb2 hw
    rw [h1, extract_field buf2 hlen2 hb2 i hi]
    simp only [sbusField, hw]

/-- Instance of C2 at a concrete 25-byte buffer and channel 5. -/
theorem C2_extract_is_bit_window_witness :
    (SBUS_extract [15, 171, 205, 239, 1, 35, 69, 103, 137, 16, 50, 84, 118, 152, 186, 220,
        254, 255, 0, 128, 64, 32, 7, 9, 0]).getD 5 0
      = sbusField [15, 171, 205, 239, 1, 35, 69, 103, 137, 16, 50, 84, 118, 152, 186, 220,
        254, 255, 0, 128, 64, 32, 7, 9, 0] 5 ∧
    (SBUS_extract [15, 171, 205, 239, 1, 35, 69, 103, 137, 16, 50, 84, 118, 152, 186, 220,
        254, 255, 0, 128, 64, 32, 7, 9, 0]).getD 5 0 ≤ 2047 ∧
    (∀ buf2 : List Nat, buf2.length = 25 → (∀ b ∈ buf2, b < 256) →
      sbusWindow buf2 5 = sbusWindow [15, 171, 205, 239, 1, 35, 69, 103, 137, 16, 50, 84, 118,
        152, 186, 220, 254, 255, 0, 128, 64, 32, 7, 9, 0] 5 →
      (SBUS_extract buf2).getD 5 0
        = (SBUS_extract [15, 171, 205, 239, 1, 35, 69, 103, 137, 16, 50, 84, 118, 152, 186,
            220, 254, 255, 0, 128, 64, 32, 7, 9, 0]).getD 5 0) :=
  C2_extract_is_bit_window
    [15, 171, 205, 239, 1, 35, 69, 103, 137, 16, 50, 84, 118, 152, 186, 220, 254, 255, 0, 128,
      64, 32, 7, 9, 0]
    (by decide) (by decide) 5 (by decide)

/-- Claim C3: whenever `SBUS_Read_Data` returns `true`, each of the 16 values it stores
lies in `[MIN_PWM, MAX_PWM]`, whatever the received bytes are and whatever value the
scaling expression takes, provided `MIN_PWM <= MAX_PWM` and the bounds are `uint16_t`
values. The call always returns. -/
theorem C3_read_values_clamped (cfg : TrackerSettings) (hmin : cfg.MIN_PWM ≤ cfg.MAX_PWM)
    (hmax : cfg.MAX_PWM < 65536) (s : SbusRx) (input : List Nat) :
    ∃ r, SBUS_Read_Data cfg s input = some r ∧
      ∀ v, r.chs = some v →
        v.length = 16 ∧ ∀ x ∈ v, cfg.MIN_PWM ≤ x ∧ x ≤ cfg.MAX_PWM := by
  obtain ⟨⟨nd, s', rest⟩, hr⟩ :=
    SBUS_Read_loop_some (input.length + 1) s input false (by omega)
  cases nd with
  | false =>
    refine ⟨{ chs := none, rx := s', rest := rest }, by simp [SBUS_Read_Data, hr], ?_⟩
    intro v hv
    simp at hv
  | true =>
    refine ⟨{ chs := some (SBUS_decode cfg s'.buf_), rx := s', rest := rest },
      by simp [SBUS_Read_Data, hr], ?_⟩
    intro v hv
    simp only [Option.some.injEq] at hv
    subst hv
    refine ⟨by simp [SBUS_decode, SBUS_extract_length], ?_⟩
    intro x hx
    simp only [SBUS_decode, List.mem_map] at hx
    obtain ⟨raw, _, rfl⟩ := hx
    exact SBUS_scale_range cfg hmin hmax raw

/-- Instance of C3 at the example settings, with `frameB` and one more byte pending. -/
theorem C3_read_values_clamped_witness :
    ∃ r, SBUS_Read_Data exampleSettings SbusRx.init (frameB ++ [0x0F]) = some r ∧
      ∀ v, r.chs = some v →
        v.length = 16 ∧ ∀ x ∈ v, exampleSettings.MIN_PWM ≤ x ∧ x ≤ exampleSettings.MAX_PWM :=
  C3_read_values_clamped exampleSettings (by decide) (by decide) SbusRx.init (frameB ++ [0x0F])

/-- Claim C4, as amended: for every array of 16 channel words, decoding the frame that
`SBUS_TX_BuildData` produces from them yields, for each channel, the scaled and clamped
image of the low 11 bits of the word; the builder packs its input as raw 11-bit values
and applies no inverse scaling. -/
theorem C4_decode_of_build (cfg : TrackerSettings) (fl : SbusFlags) (ch : List Nat)
    (hlen : ch.length = 16) :
    SBUS_decode cfg (SBUS_TX_BuildData fl ch)
      = ch.map (fun v => SBUS_scale cfg (v &&& 0x07FF)) := by
  simp only [SBUS_decode, extract_build fl ch hlen, List.map_map]
  rfl

/-- Instance of the amended C4 at the example settings and sixteen values 1500. -/
theorem C4_decode_of_build_witness :
    SBUS_decode exampleSettings (SBUS_TX_BuildData SbusFlags.init (List.replicate 16 1500))
      = (List.replicate 16 1500).map (fun v => SBUS_scale exampleSettings (v &&& 0x07FF)) :=
  C4_decode_of_build exampleSettings SbusFlags.init (List.replicate 16 1500) (by decide)

/-- Claim C4 as stated fails: with the example settings, the sixteen values 988, all in
`[MIN_PWM, MAX_PWM]`, are packed as raw 988 and decode to 1497, which is 509 away. -/
theorem C4_roundtrip_counterexample :
    (List.replicate 16 988).length = 16 ∧
    (∀ v ∈ List.replicate 16 988,
      exampleSettings.MIN_PWM ≤ v ∧ v ≤ exampleSettings.MAX_PWM) ∧
    SBUS_decode exampleSettings (SBUS_TX_BuildData SbusFlags.init (List.replicate 16 988))
      = List.replicate 16 1497 ∧
    ¬ ((SBUS_decode exampleSettings
          (SBUS_TX_BuildData SbusFlags.init (List.replicate 16 988))).getD 0 0
        ≤ (List.replicate 16 988).getD 0 0 + 1) := by
  decide

/-! ## Claims about the frame parser -/

/-- Claim C5, evaluated on the code: with `frameA`, one more byte and the first three
bytes of a further frame pending, one call of `SBUS_Read_Data` returns `true` and decodes
`tornBuf`, whose bytes 0..2 come from the unfinished frame and bytes 3..24 from `frameA`;
this buffer occurs nowhere in the input. -/
theorem C5_decodes_torn_buffer (cfg : TrackerSettings) :
    SBUS_Read_Data cfg SbusRx.init (frameA ++ [0x00, 0x0F, 0xFF, 0xFF])
      = some { chs := some (SBUS_decode cfg tornBuf), rx := SbusRx.mk tornBuf 3 0xFF,
               rest := [] } ∧
    SBUS_extract tornBuf = 2047 :: 31 :: List.replicate 14 0 ∧
    SBUS_extract frameA = List.replicate 16 0 ∧
    SBUS_decode exampleSettings tornBuf = 2012 :: List.replicate 15 988 ∧
    SBUS_decode exampleSettings frameA = List.replicate 16 988 ∧
    ¬ List.IsInfix tornBuf (frameA ++ [0x00, 0x0F, 0xFF, 0xFF]) := by
  refine ⟨rfl, by decide, by decide, by decide, by decide, by decide⟩

/-- Claim C6, evaluated on the code: after `frameA` and the byte `0x55`, the parser is in
`state_ = 0`; the next byte `0x0F` (stream position 26) is accepted as a frame start
(`state_` becomes 1) although the byte before it, `0x55`, is no legal terminator. -/
theorem C6_start_after_non_footer :
    (SbusRx_feed SbusRx.init (frameA ++ [0x55])).state_ = 0 ∧
    (SbusRx_feed SbusRx.init (frameA ++ [0x55, 0x0F])).state_ = 1 ∧
    (frameA ++ [0x55, 0x0F]).getD 26 0 = HEADER_ ∧
    (frameA ++ [0x55, 0x0F]).getD 25 0 = 0x55 ∧
    validFooter 0x55 = false := by
  decide

/-- Claim C7, evaluated on the code: from the initial state, the 25 bytes of any frame that
starts with `0x0F` make no call return on any of them; `SbusRx_Parse` returns `false` with
`state_ = 25`. Only one further byte `x` makes the call return whether byte 24 is a legal
terminator and sets `state_` to 0; that byte is consumed and stored nowhere. -/
theorem C7_no_report_on_25th_byte (f : List Nat) (hlen : f.length = 25)
    (hh : f.getD 0 0 = HEADER_) :
    SbusRx_events SbusRx.init f = List.replicate 25 none ∧
    SbusRx_Parse SbusRx.init f = (false, SbusRx.mk f 25 (f.getD 24 0), []) ∧
    (∀ x : Nat, SbusRx_Parse (SbusRx.mk f 25 (f.getD 24 0)) [x]
      = (validFooter (f.getD 24 0), SbusRx.mk f 0 (f.getD 24 0), [])) := by
  have h0 : SbusRx.init.state_ + f.length ≤ 25 := by simp [SbusRx.init, hlen]
  refine ⟨?_, ?_, ?_⟩
  · rw [SbusRx_events_short _ _ h0, hlen]
  · rw [SbusRx_Parse_short _ _ h0, feed_frame f hlen hh]
  · intro x
    simp [SbusRx_Parse, step_full]

/-- Instance of C7 at the well-formed frame `frameA`. -/
theorem C7_no_report_on_25th_byte_witness :
    SbusRx_events SbusRx.init frameA = List.replicate 25 none ∧
    SbusRx_Parse SbusRx.init frameA = (false, SbusRx.mk frameA 25 (frameA.getD 24 0), []) ∧
    (∀ x : Nat, SbusRx_Parse (SbusRx.mk frameA 25 (frameA.getD 24 0)) [x]
      = (validFooter (frameA.getD 24 0), SbusRx.mk frameA 0 (frameA.getD 24 0), [])) :=
  C7_no_report_on_25th_byte frameA (by decide) (by decide)

/-- Claim C8, evaluated on the code: with the well-formed frames `frameA` then `frameB`
pending, one call of `SBUS_Read_Data` reads all 50 bytes, returns `true` and stores the
values decoded from `frameA`; the values of `frameB` differ from them. -/
theorem C8_first_frame_wins (cfg : TrackerSettings) :
    wellFormed frameA ∧ wellFormed frameB ∧
    SBUS_Read_Data cfg SbusRx.init (frameA ++ frameB)
      = some { chs := some (SBUS_decode cfg frameA), rx := SbusRx.mk frameA 0 0,
               rest := [] } ∧
    SBUS_extract frameA = List.replicate 16 0 ∧
    SBUS_extract frameB = 2047 :: List.replicate 15 0 ∧
    SBUS_decode exampleSettings frameA = List.replicate 16 988 ∧
    SBUS_decode exampleSettings frameB = 2012 :: List.replicate 15 988 := by
  refine ⟨by decide, by decide, rfl, by decide, by decide, by decide, by decide⟩

/-- Claim C9, evaluated on the code: a 25-byte frame `B` with header `0x0F` and an illegal
terminator followed by any 25-byte frame `G`, and by at most one more byte, makes the
parser report no frame at all; the first byte of `G` is used up to discard `B`. -/
theorem C9_good_frame_lost (B G tail : List Nat) (hB : B.length = 25)
    (hh : B.getD 0 0 = HEADER_) (hbad : validFooter (B.getD 24 0) = false)
    (hG : G.length = 25) (ht : tail.length ≤ 1) :
    SbusRx_frames SbusRx.init (B ++ G ++ tail) = [] := by
  obtain ⟨g0, G', rfl⟩ : ∃ g0 G', G = g0 :: G' := by
    cases G with
    | nil => simp at hG
    | cons g0 G' => exact ⟨g0, G', rfl⟩
  have h0 : SbusRx.init.state_ + B.length ≤ 25 := by simp [SbusRx.init, hB]
  simp only [List.length_cons] at hG
  rw [List.append_assoc, SbusRx_frames_append, SbusRx_frames_short _ _ h0, feed_frame B hB hh,
    List.nil_append, List.cons_append]
  simp only [SbusRx_frames, step_full, hbad]
  simp only [Option.some.injEq, Bool.false_eq_true, if_false]
  apply SbusRx_frames_short
  simp only [List.length_append]
  omega

/-- Instance of C9 at `frameBad` followed by the well-formed `frameB` and one more byte. -/
theorem C9_good_frame_lost_witness :
    SbusRx_frames SbusRx.init (frameBad ++ frameB ++ [0x0F]) = [] :=
  C9_good_frame_lost frameBad frameB [0x0F] (by decide) (by decide) (by decide) (by decide)
    (by decide)

/-- Claim C10: for every channel array and every setting of the four flags, the frame
built by `SBUS_TX_BuildData` has 25 bytes, byte 0 is `0x0F`, byte 24 is `0x00`, and byte
23 is `(ch17 ? 0x01 : 0) | (ch18 ? 0x02 : 0) | (lostFrame ? 0x04 : 0) | (failsafe ? 0x08 : 0)`
with its upper four bits zero. -/
theorem C10_build_frame_layout (fl : SbusFlags) (ch : List Nat) :
    (SBUS_TX_BuildData fl ch).length = 25 ∧
    (SBUS_TX_BuildData fl ch).getD 0 0 = 0x0F ∧
    (SBUS_TX_BuildData fl ch).getD 24 0 = 0x00 ∧
    (SBUS_TX_BuildData fl ch).getD 23 0
      = ((if fl.ch17_ then 0x01 else 0) ||| (if fl.ch18_ then 0x02 else 0) |||
          (if fl.lost_frame_ then 0x04 else 0) ||| (if fl.failsafe_ then 0x08 else 0)) ∧
    (SBUS_TX_BuildData fl ch).getD 23 0 &&& 0xF0 = 0 := by
  obtain ⟨a, b, c, d⟩ := fl
  refine ⟨rfl, rfl, rfl, ?_, ?_⟩
  · cases a <;> cases b <;> cases c <;> cases d <;> rfl
  · simp only [SBUS_TX_BuildData, List.getD_cons_succ, List.getD_cons_zero]
    cases a <;> cases b <;> cases c <;> cases d <;> decide

/-! ## Facts about the trainer frame -/

theorem take_succ_set (l : List Nat) (n b : Nat) (h : n < l.length) :
    (l.set n b).take (n + 1) = l.take n ++ [b] := by
  induction l generalizing n with
  | nil => simp at h
  | cons a l ih =>
    cases n with
    | zero => simp
    | succ n =>
      simp only [List.length_cons, Nat.add_lt_add_iff_right] at h
      simp [ih n h]

theorem put_emitted (t : TrainerBuf) (out : List Nat) (b : Nat) (he : Emitted t out)
    (hroom : out.length < t.buffer.length) (h8 : out.length < 255) :
    ∃ t', t.put b = some t' ∧ Emitted t' (out ++ [b]) ∧ t'.crc = t.crc ∧
      t'.buffer.length = t.buffer.length := by
  obtain ⟨hi, ht⟩ := he
  refine ⟨{ buffer := t.buffer.set t.bufferIndex b, bufferIndex := (t.bufferIndex + 1) % 256,
            crc := t.crc }, ?_, ?_, rfl, ?_⟩
  · simp [TrainerBuf.put, hi, hroom]
  · constructor
    · simp only [hi, List.length_append, List.length_singleton]
      exact Nat.mod_eq_of_lt (by omega)
    · simp only [hi, List.length_append, List.length_singleton]
      rw [take_succ_set _ _ _ hroom, ht]
  · simp

theorem pushByte_emitted (t : TrainerBuf) (out : List Nat) (b : Nat) (he : Emitted t out)
    (hb : b < 256) (hc : t.crc < 256)
    (hroom : out.length + (stuffed b).length ≤ t.buffer.length) (h8 : out.length < 254) :
    ∃ t', pushByte t b = some t' ∧ Emitted t' (out ++ stuffed b) ∧ t'.crc = t.crc ^^^ b ∧
      t'.buffer.length = t.buffer.length := by
  have hx : (t.crc ^^^ b) % 256 = t.crc ^^^ b :=
    Nat.mod_eq_of_lt (Nat.xor_lt_two_pow (n := 8) hc hb)
  by_cases hs : b = 0x7E ∨ b = 0x7D
  · have hsl : (stuffed b).length = 2 := by simp [stuffed, hs]
    rw [hsl] at hroom
    have hm : (b ^^^ STUFF_MASK) % 256 = b ^^^ 0x20 := by
      rcases hs with rfl | rfl <;> decide
    obtain ⟨t2, h2, e2, c2, l2⟩ := put_emitted
      { buffer := t.buffer, bufferIndex := t.bufferIndex, crc := (t.crc ^^^ b) % 256 } out
      BYTE_STUFF he (by simpa using by omega) (by omega)
    obtain ⟨t3, h3, e3, c3, l3⟩ := put_emitted t2 (out ++ [BYTE_STUFF]) (b ^^^ 0x20) e2
      (by simp only [List.length_append, List.length_singleton, l2]; omega)
      (by simp only [List.length_append, List.length_singleton]; omega)
    refine ⟨t3, ?_, ?_, ?_, ?_⟩
    · simp only [pushByte, START_STOP, BYTE_STUFF] at *
      simp [hs, h2, hm, h3]
    · simpa [stuffed, hs, BYTE_STUFF] using e3
    · rw [c3, c2]; exact hx
    · rw [l3, l2]
  · have hsl : (stuffed b).length = 1 := by simp [stuffed, hs]
    rw [hsl] at hroom
    obtain ⟨t2, h2, e2, c2, l2⟩ := put_emitted
      { buffer := t.buffer, bufferIndex := t.bufferIndex, crc := (t.crc ^^^ b) % 256 } out
      b he (by simpa using by omega) (by omega)
    refine ⟨t2, ?_, ?_, ?_, ?_⟩
    · simp only [pushByte, START_STOP, BYTE_STUFF] at *
      simp [hs, h2]
    · simpa [stuffed, hs] using e2
    · rw [c2]; exact hx
    · rw [l2]

theorem stuffed_length_le (b : Nat) : (stuffed b).length ≤ 2 := by
  unfold stuffed
  split_ifs <;> simp

theorem stuffed_length_pos (b : Nat) : 1 ≤ (stuffed b).length := by
  unfold stuffed
  split_ifs <;> simp

theorem flatMap_stuffed_length_le (bs : List Nat) :
    (bs.flatMap stuffed).length ≤ 2 * bs.length := by
  induction bs with
  | nil => simp
  | cons b bs ih =>
    have := stuffed_length_le b
    simp only [List.flatMap_cons, List.length_append, List.length_cons]
    omega

theorem pushBytes_emitted (bs : List Nat) (t : TrainerBuf) (out : List Nat)
    (he : Emitted t out) (hb : ∀ b ∈ bs, b < 256) (hc : t.crc < 256)
    (hroom : out.length + (bs.flatMap stuffed).length ≤ t.buffer.length)
    (h8 : out.length + 2 * bs.length ≤ 254) :
    ∃ t', pushBytes t bs = some t' ∧ Emitted t' (out ++ bs.flatMap stuffed) ∧
      t'.crc = bs.foldl (fun a b => a ^^^ b) t.crc ∧ t'.crc < 256 ∧
      t'.buffer.length = t.buffer.length := by
  induction bs generalizing t out with
  | nil => exact ⟨t, rfl, by simpa using he, rfl, hc, rfl⟩
  | cons b bs ih =>
    simp only [List.length_cons] at h8
    simp only [List.flatMap_cons, List.length_append] at hroom
    have hb0 : b < 256 := hb b (List.mem_cons_self b bs)
    obtain ⟨t1, h1, e1, c1, l1⟩ := pushByte_emitted t out b he hb0 hc (by omega) (by omega)
    have hc1 : t1.crc < 256 := by
      rw [c1]; exact Nat.xor_lt_two_pow (n := 8) hc hb0
    have hl := stuffed_length_le b
    obtain ⟨t2, h2, e2, c2, hc2, l2⟩ := ih t1 (out ++ stuffed b) e1
      (fun x hx => hb x (List.mem_cons_of_mem b hx)) hc1
      (by simp only [List.length_append, l1]; omega)
      (by simp only [List.length_append]; omega)
    refine ⟨t2, ?_, ?_, ?_, hc2, ?_⟩
    · simp [pushBytes, h1, h2]
    · simpa [List.flatMap_cons, List.append_assoc] using e2
    · rw [c2, c1]; rfl
    · rw [l2, l1]

theorem pushBytes_append (t : TrainerBuf) (xs ys : List Nat) :
    pushBytes t (xs ++ ys) = (pushBytes t xs).bind fun t1 => pushBytes t1 ys := by
  induction xs generalizing t with
  | nil => rfl
  | cons x xs ih =>
    simp only [List.cons_append, pushBytes]
    cases pushByte t x with
    | none => rfl
    | some t1 => simp [ih]

theorem setTrainer_loop_eq (chan_vals : List Nat) (n channel : Nat) (t : TrainerBuf) :
    setTrainer_loop chan_vals n channel t
      = pushBytes t (trainerLoopBytes chan_vals n channel) := by
  induction n generalizing channel t with
  | zero => rfl
  | succ n ih =>
    simp only [setTrainer_loop, trainerLoopBytes, pushBytes_append]
    cases pushBytes t (trainerTriple chan_vals channel) with
    | none => rfl
    | some t1 => simp [ih]

theorem testBit_0f00 (k : Nat) :
    (0x0f00 : Nat).testBit k = (decide (8 ≤ k) && decide (k < 12)) := by
  by_cases h : k < 12
  · interval_cases k <;> decide
  · rw [Nat.testBit_lt_two_pow (lt_of_lt_of_le (by norm_num : (0x0f00 : Nat) < 2 ^ 12)
      (Nat.pow_le_pow_right (by norm_num) (by omega)))]
    simp [h]

theorem testBit_00f0 (k : Nat) :
    (0x00f0 : Nat).testBit k = (decide (4 ≤ k) && decide (k < 8)) := by
  by_cases h : k < 8
  · interval_cases k <;> decide
  · rw [Nat.testBit_lt_two_pow (lt_of_lt_of_le (by norm_num : (0x00f0 : Nat) < 2 ^ 8)
      (Nat.pow_le_pow_right (by norm_num) (by omega)))]
    simp [h]

theorem nibble_hi (c : Nat) : (c &&& 0x0f00) >>> 4 = 2 ^ 4 * ((c >>> 8) % 2 ^ 4) := by
  apply Nat.eq_of_testBit_eq
  intro j
  simp only [Nat.testBit_shiftRight, Nat.testBit_and, Nat.testBit_mul_pow_two,
    Nat.testBit_mod_two_pow, testBit_0f00]
  by_cases h : j < 4
  · have h1 : ¬ (8 ≤ 4 + j) := by omega
    have h2 : ¬ (4 ≤ j) := by omega
    simp [h1, h2]
  · by_cases h' : j < 8
    · have h1 : 8 ≤ 4 + j := by omega
      have h2 : 4 + j < 12 := by omega
      have h3 : 4 ≤ j := by omega
      have h4 : j - 4 < 4 := by omega
      have h5 : 8 + (j - 4) = 4 + j := by omega
      simp [h1, h2, h3, h4, h5]
    · have h2 : ¬ (4 + j < 12) := by omega
      have h4 : ¬ (j - 4 < 4) := by omega
      simp [h2, h4]

theorem nibble_mid (c : Nat) : (c &&& 0x00f0) >>> 4 = (c >>> 4) % 2 ^ 4 := by
  apply Nat.eq_of_testBit_eq
  intro j
  simp only [Nat.testBit_shiftRight, Nat.testBit_and, Nat.testBit_mod_two_pow, testBit_00f0]
  by_cases h : j < 4
  · have h1 : 4 + j < 8 := by omega
    simp [h, h1, Bool.and_comm]
  · have h1 : ¬ (4 + j < 8) := by omega
    simp [h, h1]

theorem nibble_top (c : Nat) : (c &&& 0x0f00) >>> 8 = (c >>> 8) % 2 ^ 4 := by
  apply Nat.eq_of_testBit_eq
  intro j
  simp only [Nat.testBit_shiftRight, Nat.testBit_and, Nat.testBit_mod_two_pow, testBit_0f00]
  by_cases h : j < 4
  · have h1 : 8 + j < 12 := by omega
    simp [h, h1, Bool.and_comm]
  · have h1 : ¬ (8 + j < 12) := by omega
    simp [h, h1]

theorem nibble_low_shift (c : Nat) : (c &&& 0x000f) <<< 4 = 2 ^ 4 * (c % 2 ^ 4) := by
  have h : (0x000f : Nat) = 2 ^ 4 - 1 := by norm_num
  rw [h, Nat.and_pow_two_sub_one_eq_mod, Nat.shiftLeft_eq, Nat.mul_comm]

theorem byte_low (c : Nat) : (c &&& 0x00ff) % 256 = c &&& 0xFF := by
  have h : (0x00ff : Nat) = 2 ^ 8 - 1 := by norm_num
  rw [h, Nat.and_pow_two_sub_one_eq_mod]
  exact Nat.mod_eq_of_lt (Nat.mod_lt _ (by norm_num))

theorem nibbles_add (q b : Nat) (hq : q < 16) (hb : b < 16) :
    (2 ^ 4 * q + b) % 256 = 2 ^ 4 * q ||| b := by
  rw [← Nat.mul_add_lt_is_or (by simpa using hb) q]
  exact Nat.mod_eq_of_lt (by omega)

theorem trainerTriple_eq (ch : List Nat) (channel : Nat) :
    trainerTriple ch channel = packPair (ch.getD channel 0) (ch.getD (channel + 1) 0) := by
  simp only [trainerTriple, packPair, List.cons.injEq, and_true]
  refine ⟨byte_low _, ?_, ?_⟩
  · rw [nibble_hi, nibble_mid]
    exact nibbles_add _ _ (Nat.mod_lt _ (by norm_num)) (Nat.mod_lt _ (by norm_num))
  · rw [nibble_low_shift, nibble_top]
    exact nibbles_add _ _ (Nat.mod_lt _ (by norm_num)) (Nat.mod_lt _ (by norm_num))

theorem packPair_lt (c0 c1 : Nat) : ∀ b ∈ packPair c0 c1, b < 256 := by
  have h := trainerTriple_eq [c0, c1] 0
  simp only [List.getD_cons_zero, List.getD_cons_succ, Nat.zero_add] at h
  rw [← h]
  intro b hb
  simp only [trainerTriple, List.mem_cons, List.mem_singleton, List.not_mem_nil, or_false] at hb
  rcases hb with rfl | rfl | rfl <;> exact Nat.mod_lt _ (by norm_num)

theorem trainerLoopBytes_eq (ch : List Nat) :
    trainerLoopBytes ch ((BT_CHANNELS + 1) / 2) 0 = packedChannels ch := by
  simp only [trainerLoopBytes, trainerTriple_eq, packedChannels, BT_CHANNELS]
  rfl

theorem packedChannels_lt (ch : List Nat) : ∀ b ∈ packedChannels ch, b < 256 := by
  intro b hb
  simp only [packedChannels, List.mem_flatMap] at hb
  obtain ⟨k, _, hk⟩ := hb
  exact packPair_lt _ _ b hk

theorem packedChannels_length (ch : List Nat) : (packedChannels ch).length = 24 := rfl

theorem stuffed_frame_type : stuffed 0x80 = [0x80] := by decide

theorem trainerFrame_length_le (ch : List Nat) : (trainerFrame ch).length ≤ 52 := by
  have h := flatMap_stuffed_length_le (packedChannels ch)
  rw [packedChannels_length] at h
  simp only [trainerFrame, trainerPayload, List.flatMap_cons, stuffed_frame_type,
    List.length_append, List.length_cons, List.length_nil]
  omega

theorem trainerFrame_length (ch : List Nat) :
    (trainerFrame ch).length = ((packedChannels ch).flatMap stuffed).length + 4 := by
  simp only [trainerFrame, trainerPayload, List.flatMap_cons, stuffed_frame_type,
    List.length_append, List.length_cons, List.length_nil]
  omega

/-- When `buffer` has room for the frame, `setTrainer` returns, and the bytes it copies out
are the frame of the specification. -/
theorem setTrainer_frame (ch : List Nat) (t : TrainerBuf)
    (hcap : (trainerFrame ch).length ≤ t.buffer.length) :
    ∃ tb, setTrainer ch t
        = some { tb := tb, addr := trainerFrame ch, len := (trainerFrame ch).length } ∧
      tb.buffer.length = t.buffer.length := by
  have hp := flatMap_stuffed_length_le (packedChannels ch)
  rw [packedChannels_length] at hp
  rw [trainerFrame_length] at hcap
  have e0 : Emitted { buffer := t.buffer, bufferIndex := 0, crc := 0x00 } [] := ⟨rfl, rfl⟩
  obtain ⟨t1, h1, e1, c1, l1⟩ := put_emitted _ [] START_STOP e0
    (by simp only [List.length_nil]; omega) (by simp)
  obtain ⟨t2, h2, e2, c2, l2⟩ := pushByte_emitted t1 ([] ++ [START_STOP]) 0x80 e1 (by norm_num)
    (by rw [c1]; norm_num)
    (by simp only [List.nil_append, List.length_singleton, l1, stuffed_frame_type]; omega)
    (by simp)
  rw [stuffed_frame_type] at e2
  obtain ⟨t3, h3, e3, c3, hc3, l3⟩ := pushBytes_emitted (packedChannels ch) t2
    ([] ++ [START_STOP] ++ [0x80]) e2 (packedChannels_lt ch)
    (by rw [c2, c1]; show (0 ^^^ 128 : Nat) < 256; decide)
    (by simp only [List.nil_append, List.length_append, List.length_singleton, l2, l1]; omega)
    (by simp only [List.nil_append, List.length_append, List.length_singleton,
          packedChannels_length]; omega)
  obtain ⟨t4, h4, e4, c4, l4⟩ := put_emitted t3 _ t3.crc e3
    (by simp only [List.nil_append, List.length_append, List.length_singleton, l3, l2, l1]
        omega)
    (by simp only [List.nil_append, List.length_append, List.length_singleton]; omega)
  obtain ⟨t5, h5, e5, c5, l5⟩ := put_emitted t4 _ START_STOP e4
    (by simp only [List.nil_append, List.length_append, List.length_singleton, l4, l3, l2, l1]
        omega)
    (by simp only [List.nil_append, List.length_append, List.length_singleton]; omega)
  have hcrc : t3.crc = xorAll (trainerPayload ch) := by
    rw [c3, c2, c1]
    simp only [xorAll, trainerPayload, List.foldl_cons]
  have hout : [] ++ [START_STOP] ++ [0x80] ++ (packedChannels ch).flatMap stuffed ++ [t3.crc]
      ++ [START_STOP] = trainerFrame ch := by
    rw [hcrc]
    simp only [trainerFrame, trainerPayload, List.flatMap_cons, stuffed_frame_type, START_STOP,
      List.nil_append, List.append_assoc, List.cons_append]
  rw [hout] at e5
  refine ⟨t5, ?_, by rw [l5, l4, l3, l2, l1]⟩
  have hloop : setTrainer_loop ch ((BT_CHANNELS + 1) / 2) 0 t2 = some t3 := by
    rw [setTrainer_loop_eq, trainerLoopBytes_eq, h3]
  simp only [setTrainer, h1, Option.bind_eq_bind, Option.some_bind, h2, hloop, h4, h5]
  rw [e5.1, e5.2]

theorem getD_penultimate (pre : List Nat) (a b : Nat) :
    (pre ++ [a] ++ [b]).getD ((pre ++ [a] ++ [b]).length - 2) 0 = a := by
  have h : (pre ++ [a] ++ [b]).length - 2 = pre.length := by simp
  rw [h, List.append_assoc, List.getD_eq_getElem?_getD,
    List.getElem?_append_right (Nat.le_refl _)]
  simp

/-! ## Facts about the override mask -/

theorem mask_set_bit (o i j : Nat) (hj : j < 16) :
    ((o ||| (1 <<< i)) % 65536).testBit j = (o.testBit j || decide (i = j)) := by
  rw [pow_consts.2.2, Nat.testBit_mod_two_pow, Nat.testBit_or, Nat.one_shiftLeft,
    Nat.testBit_two_pow]
  simp [hj]

theorem mask_clear_bit (o i j : Nat) (hj : j < 16) :
    ((o &&& (0xFFFFFFFF ^^^ (1 <<< i))) % 65536).testBit j
      = (o.testBit j && !decide (i = j)) := by
  have h32 : (0xFFFFFFFF : Nat) = 2 ^ 32 - 1 := by norm_num
  have hj32 : j < 32 := by omega
  rw [pow_consts.2.2, Nat.testBit_mod_two_pow, Nat.testBit_and, Nat.testBit_xor, h32,
    Nat.testBit_two_pow_sub_one, Nat.one_shiftLeft, Nat.testBit_two_pow]
  simp [hj, hj32]

theorem BTHeadSetChannel_curmode (cfg : TrackerSettings) (i v : Nat) (s : BtState) :
    (BTHeadSetChannel cfg i v s).curmode = s.curmode := by
  unfold BTHeadSetChannel
  dsimp only
  split_ifs <;> rfl

theorem BTHeadSetChannel_length (cfg : TrackerSettings) (i v : Nat) (s : BtState) :
    (BTHeadSetChannel cfg i v s).chan_vals.length = s.chan_vals.length := by
  unfold BTHeadSetChannel
  dsimp only
  split_ifs <;> simp

/-- Bit `j` of the mask after `BTHeadSetChannel(i, v)`. -/
theorem BTHeadSetChannel_bit (cfg : TrackerSettings) (i v j : Nat) (s : BtState)
    (hj : j < 16) :
    (BTHeadSetChannel cfg i v s).ovridech.testBit j
      = if i = j then decide (v ≠ 0) else s.ovridech.testBit j := by
  unfold BTHeadSetChannel
  dsimp only
  by_cases hi : i ≥ BT_CHANNELS
  · have hne : i ≠ j := by simp only [BT_CHANNELS] at hi; omega
    simp [hi, hne]
  · by_cases hv : v = 0
    · have h := mask_clear_bit s.ovridech i j hj
      by_cases hij : i = j <;> split_ifs <;> simp_all
    · have h := mask_set_bit s.ovridech i j hj
      by_cases hij : i = j <;> split_ifs <;> simp_all

/-- Channel `j` after `BTHeadSetChannel(i, v)` with `i` a valid index. -/
theorem BTHeadSetChannel_val (cfg : TrackerSettings) (i v j : Nat) (s : BtState)
    (hi : i < 16) (hlen : s.chan_vals.length = 16) :
    (BTHeadSetChannel cfg i v s).chan_vals.getD j 0
      = if j = i then (if v = 0 then cfg.PPM_CENTER % 65536 else v)
        else s.chan_vals.getD j 0 := by
  have hi' : ¬ i ≥ BT_CHANNELS := by simp only [BT_CHANNELS]; omega
  have hil : i < s.chan_vals.length := by omega
  unfold BTHeadSetChannel
  dsimp only
  by_cases hv : v = 0 <;> by_cases hji : j = i
  · subst hji; split_ifs <;> simp_all
  · have : i ≠ j := fun h => hji h.symm
    split_ifs <;> simp_all
  · subst hji; split_ifs <;> simp_all
  · have : i ≠ j := fun h => hji h.symm
    split_ifs <;> simp_all

theorem BTHeadStart_ovridech (cfg : TrackerSettings) (a : Bool) (s : BtState) :
    (BTHeadStart cfg a s).ovridech = s.ovridech := by
  unfold BTHeadStart
  split_ifs <;> rfl

theorem runHead_bit (cfg : TrackerSettings) (ops : List HeadOp) (s : BtState) (i : Nat)
    (hi : i < 16) :
    (runHead cfg s ops).ovridech.testBit i = lastSetNonzero i (s.ovridech.testBit i) ops := by
  induction ops generalizing s with
  | nil => rfl
  | cons op ops ih =>
    cases op with
    | start a =>
      simp only [runHead, lastSetNonzero, List.foldl_cons] at ih ⊢
      rw [ih, BTHeadStart_ovridech]
    | setChannel c v =>
      simp only [runHead, lastSetNonzero, List.foldl_cons] at ih ⊢
      rw [ih, BTHeadSetChannel_bit cfg c v i s hi]


/-! ## Claims about the flags -/

/-- Claim C11, as amended: a call of `SBUS_Read_Data` always returns and leaves the flags
`failsafe_`, `lost_frame_`, `ch17_`, `ch18_` as they were, whatever bytes were received;
from program start they stay `false`. -/
theorem C11_flags_left_unchanged (cfg : TrackerSettings) (g : SbusVars) (input : List Nat) :
    ∃ r, SBUS_Read_Data_vars cfg g input = some (r, g.fl) := by
  obtain ⟨⟨nd, s', rest⟩, hr⟩ :=
    SBUS_Read_loop_some (input.length + 1) g.rx input false (by omega)
  cases nd with
  | false =>
    exact ⟨{ chs := none, rx := s', rest := rest },
      by simp [SBUS_Read_Data_vars, SBUS_Read_Data, hr]⟩
  | true =>
    exact ⟨{ chs := some (SBUS_decode cfg s'.buf_), rx := s', rest := rest },
      by simp [SBUS_Read_Data_vars, SBUS_Read_Data, hr]⟩

/-- Claim C11 as stated fails: from the initial state, the well-formed frame `frameFailsafe`
(bit 3 of byte 23 set) followed by one more byte is accepted by `SBUS_Read_Data`, and the
failsafe flag is still `false` afterwards. -/
theorem C11_failsafe_counterexample :
    wellFormed frameFailsafe ∧
    (frameFailsafe.getD 23 0).testBit 3 = true ∧
    SBUS_Read_Data_vars exampleSettings SbusVars.init (frameFailsafe ++ [0x00])
      = some ({ chs := some (SBUS_decode exampleSettings frameFailsafe),
                rx := SbusRx.mk frameFailsafe 0 0, rest := [] }, SbusFlags.init) ∧
    SbusFlags.init.failsafe_ = false ∧
    (flagsOfByte (frameFailsafe.getD 23 0)).failsafe_ = true := by
  refine ⟨by decide, by decide, rfl, rfl, by decide⟩

/-! ## Claims about the trainer frame -/

/-- Claim C12, as amended: for every 16-channel array, when `buffer` has room for the frame, the bytes
`setTrainer` returns are `0x7E`, then the stuffed image of the 25 payload bytes (`0x80` and
the three packed bytes of each pair), then the checksum byte, then `0x7E`; the returned
length is the number of these bytes; the values of `crc` and `bufferIndex` before the call
do not matter. -/
theorem C12_setTrainer_bytes (ch : List Nat) (t : TrainerBuf) (_hlen : ch.length = 16)
    (hroom : (trainerFrame ch).length ≤ t.buffer.length) :
    (∃ tb, setTrainer ch t
      = some { tb := tb,
               addr := [0x7E] ++ (trainerPayload ch).flatMap stuffed
                        ++ [xorAll (trainerPayload ch)] ++ [0x7E],
               len := ([0x7E] ++ (trainerPayload ch).flatMap stuffed
                        ++ [xorAll (trainerPayload ch)] ++ [0x7E]).length }) ∧
    (trainerPayload ch).length = 25 ∧
    stuffed 0x7E = [0x7D, 0x5E] ∧
    (∀ crc0 idx0 : Nat,
      setTrainer ch { buffer := t.buffer, bufferIndex := idx0, crc := crc0 }
        = setTrainer ch t) := by
  obtain ⟨tb, h, _⟩ := setTrainer_frame ch t hroom
  exact ⟨⟨tb, h⟩, rfl, by decide, fun _ _ => rfl⟩

/-- Instance of the amended C12 at a channel array whose packed bytes are all stuffed. -/
theorem C12_setTrainer_bytes_witness :
    (∃ tb, setTrainer chanAllStuffed (TrainerBuf.init 51)
      = some { tb := tb,
               addr := [0x7E] ++ (trainerPayload chanAllStuffed).flatMap stuffed
                        ++ [xorAll (trainerPayload chanAllStuffed)] ++ [0x7E],
               len := ([0x7E] ++ (trainerPayload chanAllStuffed).flatMap stuffed
                        ++ [xorAll (trainerPayload chanAllStuffed)] ++ [0x7E]).length }) ∧
    (trainerPayload chanAllStuffed).length = 25 ∧
    stuffed 0x7E = [0x7D, 0x5E] ∧
    (∀ crc0 idx0 : Nat,
      setTrainer chanAllStuffed
          { buffer := (TrainerBuf.init 51).buffer, bufferIndex := idx0, crc := crc0 }
        = setTrainer chanAllStuffed (TrainerBuf.init 51)) :=
  C12_setTrainer_bytes chanAllStuffed (TrainerBuf.init 51) (by decide) (by decide)

/-- Claim C12 as stated fails when `buffer` is too short for the frame: with
`BLUETOOTH_LINE_LENGTH = 32` (a buffer of 33 bytes) and a 16-channel array of values inside
`[988, 2012]` whose frame has 44 bytes, a write of `setTrainer` falls outside `buffer` and no
bytes are returned. -/
theorem C12_small_buffer_counterexample :
    chanInRangeStuffed.length = 16 ∧
    (∀ c ∈ chanInRangeStuffed, 988 ≤ c ∧ c ≤ 2012) ∧
    (TrainerBuf.init 32).buffer.length = 33 ∧
    ([0x7E] ++ (trainerPayload chanInRangeStuffed).flatMap stuffed
      ++ [xorAll (trainerPayload chanInRangeStuffed)] ++ [0x7E]).length = 44 ∧
    setTrainer chanInRangeStuffed (TrainerBuf.init 32) = none := by
  decide

/-- Claim C13, as amended: for every 16-channel array, when `buffer` has room for the frame, the
second-to-last byte of the frame `setTrainer` returns is the XOR of the 25 unescaped payload
bytes. For `[992]*16` the frame has 28 bytes, none of them stuffed, and that checksum; for an
array with one stuffed payload byte the checksum is the XOR of the unescaped bytes and
differs from the XOR of the stuffed ones. -/
theorem C13_checksum_unescaped (ch : List Nat) (t : TrainerBuf) (_hlen : ch.length = 16)
    (hroom : (trainerFrame ch).length ≤ t.buffer.length) :
    (∃ r, setTrainer ch t = some r ∧
      r.addr.getD (r.len - 2) 0 = xorAll (trainerPayload ch) ∧
      (trainerPayload ch).length = 25) ∧
    (∀ t2 : TrainerBuf, 28 ≤ t2.buffer.length →
      ∃ r, setTrainer (List.replicate 16 992) t2 = some r ∧
        r.addr = [0x7E, 0x80, 0xE0, 0x3E, 0x03, 0xE0, 0x3E, 0x03, 0xE0, 0x3E, 0x03, 0xE0,
          0x3E, 0x03, 0xE0, 0x3E, 0x03, 0xE0, 0x3E, 0x03, 0xE0, 0x3E, 0x03, 0xE0, 0x3E, 0x03,
          0x80, 0x7E] ∧
        r.len = 28 ∧
        r.addr.getD (r.len - 2) 0 = xorAll (trainerPayload (List.replicate 16 992))) ∧
    (∀ b ∈ trainerPayload (List.replicate 16 992), b ≠ 0x7E ∧ b ≠ 0x7D) ∧
    (∀ t2 : TrainerBuf, 29 ≤ t2.buffer.length →
      ∃ r, setTrainer (0x7E :: List.replicate 15 0) t2 = some r ∧
        r.addr = [0x7E, 0x80, 0x7D, 0x5E] ++ List.replicate 23 0 ++ [0xFE, 0x7E] ∧
        r.addr.getD (r.len - 2) 0 = xorAll (trainerPayload (0x7E :: List.replicate 15 0)) ∧
        r.addr.getD (r.len - 2) 0
          ≠ xorAll ((trainerPayload (0x7E :: List.replicate 15 0)).flatMap stuffed)) := by
  refine ⟨?_, ?_, by decide, ?_⟩
  · obtain ⟨tb, h, _⟩ := setTrainer_frame ch t hroom
    refine ⟨_, h, ?_, rfl⟩
    simp only [trainerFrame]
    exact getD_penultimate _ _ _
  · intro t2 h2
    have hf : trainerFrame (List.replicate 16 992)
        = [0x7E, 0x80, 0xE0, 0x3E, 0x03, 0xE0, 0x3E, 0x03, 0xE0, 0x3E, 0x03, 0xE0, 0x3E,
          0x03, 0xE0, 0x3E, 0x03, 0xE0, 0x3E, 0x03, 0xE0, 0x3E, 0x03, 0xE0, 0x3E, 0x03, 0x80,
          0x7E] := by decide
    obtain ⟨tb, h, _⟩ := setTrainer_frame (List.replicate 16 992) t2
      (by rw [hf]; exact h2)
    rw [hf] at h
    exact ⟨_, h, rfl, rfl, by dsimp only; decide⟩
  · intro t2 h2
    have hf : trainerFrame (0x7E :: List.replicate 15 0)
        = [0x7E, 0x80, 0x7D, 0x5E] ++ List.replicate 23 0 ++ [0xFE, 0x7E] := by decide
    obtain ⟨tb, h, _⟩ := setTrainer_frame (0x7E :: List.replicate 15 0) t2
      (by rw [hf]; exact h2)
    rw [hf] at h
    exact ⟨_, h, rfl, by dsimp only; decide, by dsimp only; decide⟩

/-- Instance of the amended C13 at the array `[992]*16` and a buffer of 33 bytes. -/
theorem C13_checksum_unescaped_witness :
    (∃ r, setTrainer (List.replicate 16 992) (TrainerBuf.init 32) = some r ∧
      r.addr.getD (r.len - 2) 0 = xorAll (trainerPayload (List.replicate 16 992)) ∧
      (trainerPayload (List.replicate 16 992)).length = 25) ∧
    (∀ t2 : TrainerBuf, 28 ≤ t2.buffer.length →
      ∃ r, setTrainer (List.replicate 16 992) t2 = some r ∧
        r.addr = [0x7E, 0x80, 0xE0, 0x3E, 0x03, 0xE0, 0x3E, 0x03, 0xE0, 0x3E, 0x03, 0xE0,
          0x3E, 0x03, 0xE0, 0x3E, 0x03, 0xE0, 0x3E, 0x03, 0xE0, 0x3E, 0x03, 0xE0, 0x3E, 0x03,
          0x80, 0x7E] ∧
        r.len = 28 ∧
        r.addr.getD (r.len - 2) 0 = xorAll (trainerPayload (List.replicate 16 992))) ∧
    (∀ b ∈ trainerPayload (List.replicate 16 992), b ≠ 0x7E ∧ b ≠ 0x7D) ∧
    (∀ t2 : TrainerBuf, 29 ≤ t2.buffer.length →
      ∃ r, setTrainer (0x7E :: List.replicate 15 0) t2 = some r ∧
        r.addr = [0x7E, 0x80, 0x7D, 0x5E] ++ List.replicate 23 0 ++ [0xFE, 0x7E] ∧
        r.addr.getD (r.len - 2) 0 = xorAll (trainerPayload (0x7E :: List.replicate 15 0)) ∧
        r.addr.getD (r.len - 2) 0
          ≠ xorAll ((trainerPayload (0x7E :: List.replicate 15 0)).flatMap stuffed)) :=
  C13_checksum_unescaped (List.replicate 16 992) (TrainerBuf.init 32) (by decide) (by decide)

/-- Claim C13 as stated fails when `buffer` is too short for the frame: with
`BLUETOOTH_LINE_LENGTH = 32` and a 16-channel array of values inside `[988, 2012]` whose
frame has 44 bytes, `setTrainer` returns no frame, so none whose second-to-last byte is the
XOR of the unescaped payload bytes. -/
theorem C13_small_buffer_counterexample :
    chanInRangeStuffed.length = 16 ∧
    (∀ c ∈ chanInRangeStuffed, 988 ≤ c ∧ c ≤ 2012) ∧
    (TrainerBuf.init 32).buffer.length = 33 ∧
    (trainerFrame chanInRangeStuffed).length = 44 ∧
    ¬ (∃ r, setTrainer chanInRangeStuffed (TrainerBuf.init 32) = some r ∧
        r.addr.getD (r.len - 2) 0 = xorAll (trainerPayload chanInRangeStuffed)) := by
  have h1 : setTrainer chanInRangeStuffed (TrainerBuf.init 32) = none := by decide
  refine ⟨by decide, by decide, by decide, by decide, ?_⟩
  rw [h1]
  simp

/-- Claim C14, evaluated on the code: for the channel array `0x00FE, 0, ..., 0` the frame
`setTrainer` returns has 28 bytes and its checksum byte, at index 26, strictly between the
first and the last byte, is `0x7E`: `buffer[bufferIndex++] = crc` writes the checksum without
going through `pushByte`. -/
theorem C14_checksum_not_stuffed :
    (setTrainer (0xFE :: List.replicate 15 0) (TrainerBuf.init 32)).map
        (fun r => (r.addr, r.len))
      = some ([0x7E, 0x80, 0xFE] ++ List.replicate 23 0 ++ [0x7E, 0x7E], 28) ∧
    ([0x7E, 0x80, 0xFE] ++ List.replicate 23 0 ++ [0x7E, 0x7E]).getD 26 0 = 0x7E ∧
    xorAll (trainerPayload (0xFE :: List.replicate 15 0)) = 0x7E := by
  decide

/-- Claim C15, as amended: the frame `setTrainer` builds has at most 52 bytes for every
16-channel array; hence, when `BLUETOOTH_LINE_LENGTH` is at least 52, the call returns with
every write inside the `BLUETOOTH_LINE_LENGTH + 1` bytes of `buffer`, the length does not
exceed `BLUETOOTH_LINE_LENGTH`, and `memcpy` copies that many bytes. -/
theorem C15_length_bound (lineLength : Nat) (hL : 52 ≤ lineLength) (ch : List Nat)
    (t : TrainerBuf) (_hlen : ch.length = 16) (hbuf : t.buffer.length = lineLength + 1) :
    ∃ r, setTrainer ch t = some r ∧ r.len ≤ 52 ∧ r.len ≤ lineLength ∧
      r.addr.length = r.len ∧ r.tb.buffer.length = lineLength + 1 := by
  have hle := trainerFrame_length_le ch
  obtain ⟨tb, h, hl⟩ := setTrainer_frame ch t (by omega)
  exact ⟨_, h, hle, by dsimp only; omega, rfl, by rw [← hbuf]; exact hl⟩

/-- Instance of the amended C15 at `BLUETOOTH_LINE_LENGTH = 52` and the array whose packed
bytes are all stuffed. -/
theorem C15_length_bound_witness :
    ∃ r, setTrainer chanAllStuffed (TrainerBuf.init 52) = some r ∧ r.len ≤ 52 ∧ r.len ≤ 52 ∧
      r.addr.length = r.len ∧ r.tb.buffer.length = 52 + 1 :=
  C15_length_bound 52 (by decide) chanAllStuffed (TrainerBuf.init 52) (by decide) (by decide)

/-- Claim C15 as stated fails when the constant is below 52: the 16-channel array
`chanAllStuffed` needs a frame of 52 bytes; with `BLUETOOTH_LINE_LENGTH = 32` (a buffer of
33 bytes), and with every value below 51, `setTrainer` writes outside `buffer`, the source
having no bound check; with the value 51 the call returns length 52, which exceeds 51. -/
theorem C15_overflow_counterexample :
    chanAllStuffed.length = 16 ∧
    (∀ c ∈ chanAllStuffed, c < 65536) ∧
    (trainerFrame chanAllStuffed).length = 52 ∧
    (TrainerBuf.init 32).buffer.length = 32 + 1 ∧
    setTrainer chanAllStuffed (TrainerBuf.init 32) = none ∧
    (∀ L, L < 51 → setTrainer chanAllStuffed (TrainerBuf.init L) = none) ∧
    (setTrainer chanAllStuffed (TrainerBuf.init 51)).map (fun r => r.len) = some 52 := by
  decide

/-! ## Claims about the link mode controller -/

/-- Claim C16: `BTSetMode(m)` with `m` the current mode changes nothing: no hook is called
(the record of calls is the same) and `curmode`, `btscanonly`, `btThreadRun` keep their
values; calling `BTSetMode(m)` twice in a row gives the same calls and the same state as
calling it once. -/
theorem C16_setMode_same_mode (cfg : TrackerSettings) (advErr advErr2 : Bool) (m : btmodet)
    (s : BtState) :
    BTSetMode cfg advErr s.curmode s = s ∧
    BTSetMode cfg advErr2 m (BTSetMode cfg advErr m s) = BTSetMode cfg advErr m s := by
  have hcur : (BTSetMode cfg advErr m s).curmode = m := by
    unfold BTSetMode
    split_ifs with h
    · exact h.symm
    · rfl
  constructor
  · simp [BTSetMode]
  · generalize BTSetMode cfg advErr m s = s' at hcur
    simp [BTSetMode, hcur]

/-- Claim C17: for every current mode `c` and every requested mode `m` different from `c`,
`BTSetMode(m)` calls the stop hook of `c` once (none for Disabled), then the start hook of
`m` once (none for Disabled), in that order and nothing else, and `BTGetMode()` returns `m`
afterwards. -/
theorem C17_setMode_hooks (cfg : TrackerSettings) (advErr : Bool) (m : btmodet) (s : BtState)
    (h : m ≠ s.curmode) :
    (BTSetMode cfg advErr m s).calls = s.calls ++ stopHook s.curmode ++ startHook m ∧
    BTGetMode (BTSetMode cfg advErr m s) = m := by
  obtain ⟨c, so, tr, bc, cv, ov, lo, tb, calls⟩ := s
  simp only at h
  constructor
  · cases c <;> cases m <;> cases advErr <;>
      simp_all [BTSetMode, BTHeadStop, BTHeadStart, BTRmtStop, BTRmtStart, stopHook, startHook]
  · simp [BTSetMode, BTGetMode, h]

/-- Instance of C17: from ScanOnly, reached from the initial state, to HeadUnitBLE. -/
theorem C17_setMode_hooks_witness :
    (BTSetMode exampleSettings false btmodet.BTPARAHEAD
        (BTSetMode exampleSettings false btmodet.BTSCANONLY (BtState.init 32))).calls
      = (BTSetMode exampleSettings false btmodet.BTSCANONLY (BtState.init 32)).calls
          ++ stopHook (BTSetMode exampleSettings false btmodet.BTSCANONLY
              (BtState.init 32)).curmode
          ++ startHook btmodet.BTPARAHEAD ∧
    BTGetMode (BTSetMode exampleSettings false btmodet.BTPARAHEAD
        (BTSetMode exampleSettings false btmodet.BTSCANONLY (BtState.init 32)))
      = btmodet.BTPARAHEAD :=
  C17_setMode_hooks exampleSettings false btmodet.BTPARAHEAD
    (BTSetMode exampleSettings false btmodet.BTSCANONLY (BtState.init 32)) (by decide)

/-- Claim C18: in HeadUnitBLE mode, for every channel index `i` in 0..15, `setChannel(i, 0)`
clears bit `i` of the override mask and sets channel `i` to `PPM_CENTER`; `setChannel(i, v)`
with `v != 0` sets bit `i` and stores `v`; every other channel and every other mask bit stays
as it was. Hence channel 3 set to a nonzero value, then to 0, then to a nonzero value has
bit 3 set, then clear with the channel at center, then set again. `PPM_CENTER` is taken to
fit the `uint16_t` slot. -/
theorem C18_setChannel_mask (cfg : TrackerSettings) (s : BtState) (i v v1 v2 : Nat)
    (hmode : s.curmode = btmodet.BTPARAHEAD) (hi : i < 16)
    (hlen : s.chan_vals.length = 16) (hc : cfg.PPM_CENTER < 65536)
    (hv : v ≠ 0) (hv1 : v1 ≠ 0) (hv2 : v2 ≠ 0) :
    ((BTSetChannel cfg i 0 s).ovridech.testBit i = false ∧
      (BTSetChannel cfg i 0 s).chan_vals.getD i 0 = cfg.PPM_CENTER) ∧
    ((BTSetChannel cfg i v s).ovridech.testBit i = true ∧
      (BTSetChannel cfg i v s).chan_vals.getD i 0 = v) ∧
    (∀ w j : Nat, j < 16 → j ≠ i →
      (BTSetChannel cfg i w s).chan_vals.getD j 0 = s.chan_vals.getD j 0 ∧
      (BTSetChannel cfg i w s).ovridech.testBit j = s.ovridech.testBit j) ∧
    ((BTSetChannel cfg 3 v1 s).ovridech.testBit 3 = true ∧
      (BTSetChannel cfg 3 0 (BTSetChannel cfg 3 v1 s)).ovridech.testBit 3 = false ∧
      (BTSetChannel cfg 3 0 (BTSetChannel cfg 3 v1 s)).chan_vals.getD 3 0 = cfg.PPM_CENTER ∧
      (BTSetChannel cfg 3 v2
        (BTSetChannel cfg 3 0 (BTSetChannel cfg 3 v1 s))).ovridech.testBit 3 = true) := by
  have hset : ∀ (k w : Nat) (st : BtState), st.curmode = btmodet.BTPARAHEAD →
      BTSetChannel cfg k w st = BTHeadSetChannel cfg k w st := by
    intro k w st h
    simp [BTSetChannel, h]
  have hpc : cfg.PPM_CENTER % 65536 = cfg.PPM_CENTER := Nat.mod_eq_of_lt hc
  have hm1 : (BTHeadSetChannel cfg 3 v1 s).curmode = btmodet.BTPARAHEAD := by
    rw [BTHeadSetChannel_curmode, hmode]
  have hm2 : (BTHeadSetChannel cfg 3 0 (BTHeadSetChannel cfg 3 v1 s)).curmode
      = btmodet.BTPARAHEAD := by
    rw [BTHeadSetChannel_curmode, hm1]
  have hl1 : (BTHeadSetChannel cfg 3 v1 s).chan_vals.length = 16 := by
    rw [BTHeadSetChannel_length, hlen]
  refine ⟨⟨?_, ?_⟩, ⟨?_, ?_⟩, ?_, ?_, ?_, ?_, ?_⟩
  · rw [hset _ _ _ hmode, BTHeadSetChannel_bit cfg i 0 i s hi]; simp
  · rw [hset _ _ _ hmode, BTHeadSetChannel_val cfg i 0 i s hi hlen]; simp [hpc]
  · rw [hset _ _ _ hmode, BTHeadSetChannel_bit cfg i v i s hi]; simp [hv]
  · rw [hset _ _ _ hmode, BTHeadSetChannel_val cfg i v i s hi hlen]; simp [hv]
  · intro w j hj hji
    rw [hset _ _ _ hmode, BTHeadSetChannel_val cfg i w j s hi hlen,
      BTHeadSetChannel_bit cfg i w j s hj]
    have : i ≠ j := fun h => hji h.symm
    simp [hji, this]
  · rw [hset _ _ _ hmode, BTHeadSetChannel_bit cfg 3 v1 3 s (by norm_num)]; simp [hv1]
  · rw [hset _ _ _ hmode, hset _ _ _ hm1, BTHeadSetChannel_bit cfg 3 0 3 _ (by norm_num)]; simp
  · rw [hset _ _ _ hmode, hset _ _ _ hm1,
      BTHeadSetChannel_val cfg 3 0 3 _ (by norm_num) hl1]; simp [hpc]
  · rw [hset _ _ _ hmode, hset _ _ _ hm1, hset _ _ _ hm2,
      BTHeadSetChannel_bit cfg 3 v2 3 _ (by norm_num)]; simp [hv2]

/-- Instance of C18 in the state reached from the initial one by `BTSetMode(BTPARAHEAD)`,
for channel 5 and the values 1600, 1200, 1800. -/
theorem C18_setChannel_mask_witness :
    ((BTSetChannel exampleSettings 5 0
        (BTSetMode exampleSettings false btmodet.BTPARAHEAD
          (BtState.init 32))).ovridech.testBit 5 = false ∧
      (BTSetChannel exampleSettings 5 0
        (BTSetMode exampleSettings false btmodet.BTPARAHEAD
          (BtState.init 32))).chan_vals.getD 5 0 = exampleSettings.PPM_CENTER) ∧
    ((BTSetChannel exampleSettings 5 1600
        (BTSetMode exampleSettings false btmodet.BTPARAHEAD
          (BtState.init 32))).ovridech.testBit 5 = true ∧
      (BTSetChannel exampleSettings 5 1600
        (BTSetMode exampleSettings false btmodet.BTPARAHEAD
          (BtState.init 32))).chan_vals.getD 5 0 = 1600) ∧
    (∀ w j : Nat, j < 16 → j ≠ 5 →
      (BTSetChannel exampleSettings 5 w
        (BTSetMode exampleSettings false btmodet.BTPARAHEAD
          (BtState.init 32))).chan_vals.getD j 0
        = (BTSetMode exampleSettings false btmodet.BTPARAHEAD
            (BtState.init 32)).chan_vals.getD j 0 ∧
      (BTSetChannel exampleSettings 5 w
        (BTSetMode exampleSettings false btmodet.BTPARAHEAD
          (BtState.init 32))).ovridech.testBit j
        = (BTSetMode exampleSettings false btmodet.BTPARAHEAD
            (BtState.init 32)).ovridech.testBit j) ∧
    ((BTSetChannel exampleSettings 3 1200
        (BTSetMode exampleSettings false btmodet.BTPARAHEAD
          (BtState.init 32))).ovridech.testBit 3 = true ∧
      (BTSetChannel exampleSettings 3 0 (BTSetChannel exampleSettings 3 1200
        (BTSetMode exampleSettings false btmodet.BTPARAHEAD
          (BtState.init 32)))).ovridech.testBit 3 = false ∧
      (BTSetChannel exampleSettings 3 0 (BTSetChannel exampleSettings 3 1200
        (BTSetMode exampleSettings false btmodet.BTPARAHEAD
          (BtState.init 32)))).chan_vals.getD 3 0 = exampleSettings.PPM_CENTER ∧
      (BTSetChannel exampleSettings 3 1800
        (BTSetChannel exampleSettings 3 0 (BTSetChannel exampleSettings 3 1200
          (BTSetMode exampleSettings false btmodet.BTPARAHEAD
            (BtState.init 32))))).ovridech.testBit 3 = true) :=
  C18_setChannel_mask exampleSettings
    (BTSetMode exampleSettings false btmodet.BTPARAHEAD (BtState.init 32)) 5 1600 1200 1800
    (by decide) (by decide) (by decide) (by decide) (by decide) (by decide) (by decide)

/-- Claim C19, as amended: in every state reached from the initial state by any sequence of
`BTHeadStart` and `setChannel` calls, bit `i` (`i` in 0..15) of the override mask is clear
when the most recent `setChannel` call for channel `i` had value 0 and set otherwise; it is
set before any `setChannel` call for channel `i`, and `BTHeadStart` does not change it. -/
theorem C19_mask_follows_last_set (cfg : TrackerSettings) (lineLength : Nat)
    (ops : List HeadOp) (i : Nat) (hi : i < 16) :
    (runHead cfg (BtState.init lineLength) ops).ovridech.testBit i
      = lastSetNonzero i true ops := by
  rw [runHead_bit cfg ops _ i hi]
  congr 1
  simp only [BtState.init]
  interval_cases i <;> decide

/-- Instance of the amended C19 for channel 3 after a start, a nonzero value, the value 0
and a value for another channel. -/
theorem C19_mask_follows_last_set_witness :
    (runHead exampleSettings (BtState.init 32)
        [HeadOp.start false, HeadOp.setChannel 3 1600, HeadOp.setChannel 3 0,
          HeadOp.setChannel 5 7]).ovridech.testBit 3
      = lastSetNonzero 3 true
        [HeadOp.start false, HeadOp.setChannel 3 1600, HeadOp.setChannel 3 0,
          HeadOp.setChannel 5 7] :=
  C19_mask_follows_last_set exampleSettings 32
    [HeadOp.start false, HeadOp.setChannel 3 1600, HeadOp.setChannel 3 0,
      HeadOp.setChannel 5 7] 3 (by decide)

/-- Claim C19 as stated fails: in the initial state, before any `setChannel` call, the mask
is `0xFFFF`, so bit 0 is set although channel 0 carries no supplied value; after a start all
channels are at center and the mask is still `0xFFFF`; after `setChannel(3, 1600)` and a
start, channel 3 is back at center and bit 3 is still set. -/
theorem C19_initial_mask_counterexample :
    (runHead exampleSettings (BtState.init 32) []).ovridech = 0xFFFF ∧
    (runHead exampleSettings (BtState.init 32) []).ovridech.testBit 0 = true ∧
    suppliedAfter 0 false [] = false ∧
    (runHead exampleSettings (BtState.init 32) [HeadOp.start false]).ovridech = 0xFFFF ∧
    (runHead exampleSettings (BtState.init 32) [HeadOp.start false]).chan_vals
      = List.replicate 16 1500 ∧
    suppliedAfter 0 false [HeadOp.start false] = false ∧
    (runHead exampleSettings (BtState.init 32)
      [HeadOp.setChannel 3 1600, HeadOp.start false]).ovridech.testBit 3 = true ∧
    (runHead exampleSettings (BtState.init 32)
      [HeadOp.setChannel 3 1600, HeadOp.start false]).chan_vals.getD 3 0 = 1500 ∧
    suppliedAfter 3 false [HeadOp.setChannel 3 1600, HeadOp.start false] = false := by
  decide

/-- Claim C20: in the modes Disabled and ScanOnly, `BTGetChannel(i)` returns 0 for every
index, and `BTSetChannel(i, v)` leaves the whole state as it was: every channel value, the
override mask and the current mode. -/
theorem C20_no_channel_data (cfg : TrackerSettings) (rmtGet : Nat → Nat) (s : BtState)
    (i v : Nat)
    (h : s.curmode = btmodet.BTDISABLE ∨ s.curmode = btmodet.BTSCANONLY) :
    BTGetChannel rmtGet s i = 0 ∧ BTSetChannel cfg i v s = s := by
  rcases h with h | h <;> simp [BTGetChannel, BTSetChannel, h]

/-- Instance of C20 in ScanOnly mode, reached from the initial state. -/
theorem C20_no_channel_data_witness :
    BTGetChannel (fun _ => 7)
        (BTSetMode exampleSettings false btmodet.BTSCANONLY (BtState.init 32)) 3 = 0 ∧
    BTSetChannel exampleSettings 3 1600
        (BTSetMode exampleSettings false btmodet.BTSCANONLY (BtState.init 32))
      = BTSetMode exampleSettings false btmodet.BTSCANONLY (BtState.init 32) :=
  C20_no_channel_data exampleSettings (fun _ => 7)
    (BTSetMode exampleSettings false btmodet.BTSCANONLY (BtState.init 32)) 3 1600
    (by decide)

/-! ## Facts about the sleep of bt_Thread -/

theorem bitLengthAux_zero (fuel : Nat) : bitLengthAux fuel 0 = 0 := by
  cases fuel <;> simp [bitLengthAux]

theorem bitLengthAux_spec (fuel n : Nat) (h : n ≤ fuel) :
    n < 2 ^ bitLengthAux fuel n ∧ (0 < n → 2 ^ bitLengthAux fuel n ≤ 2 * n) := by
  induction fuel generalizing n with
  | zero =>
    have : n = 0 := by omega
    subst this
    simp [bitLengthAux]
  | succ fuel ih =>
    by_cases h0 : n = 0
    · subst h0
      simp [bitLengthAux]
    · obtain ⟨h1, h2⟩ := ih (n / 2) (by omega)
      simp only [bitLengthAux, if_neg h0, pow_succ]
      refine ⟨by omega, fun _ => ?_⟩
      by_cases h3 : n / 2 = 0
      · rw [h3, bitLengthAux_zero]
        simp only [pow_zero]
        omega
      · have := h2 (by omega)
        omega

theorem bitLength_spec (n : Nat) :
    n < 2 ^ bitLength n ∧ (0 < n → 2 ^ bitLength n ≤ 2 * n) :=
  bitLengthAux_spec n n (le_refl _)

/-- The rounding unit `2 ^ s` of `roundDouble N`: the result is a multiple of it next to `N`,
at most half a unit away, and the unit is at most `N / 2 ^ 52`. -/
theorem roundDouble_unit (N : Nat) (hN : 2 ^ 52 ≤ N) :
    ∃ s q, roundDouble N = q * 2 ^ s ∧ 2 ^ s * 2 ^ 52 ≤ N ∧
      2 * roundDouble N ≤ 2 * N + 2 ^ s ∧ 2 * N ≤ 2 * roundDouble N + 2 ^ s ∧
      q ≤ N / 2 ^ s + 1 := by
  obtain ⟨h1, h2⟩ := bitLength_spec N
  have hpos : 0 < N := lt_of_lt_of_le (by norm_num) hN
  have h2 := h2 hpos
  have hb : 53 ≤ bitLength N := by
    by_contra hc
    have : 2 ^ bitLength N ≤ 2 ^ 52 := Nat.pow_le_pow_right (by norm_num) (by omega)
    omega
  have hs : 2 ^ (bitLength N - 53) * 2 ^ 52 ≤ N := by
    have e : 2 ^ bitLength N = 2 ^ (bitLength N - 53) * 2 ^ 52 * 2 := by
      rw [Nat.mul_assoc, ← pow_succ, ← pow_add]
      congr 1
      omega
    omega
  have hdm := Nat.div_add_mod N (2 ^ (bitLength N - 53))
  have hr := Nat.mod_lt N (Nat.two_pow_pos (bitLength N - 53))
  have hc := Nat.mul_comm (2 ^ (bitLength N - 53)) (N / 2 ^ (bitLength N - 53))
  unfold roundDouble
  dsimp only
  split_ifs with hif
  · refine ⟨_, _, rfl, hs, ?_, ?_, by omega⟩
    · omega
    · rcases hif with hif | hif <;> omega
  · refine ⟨_, _, rfl, hs, ?_, ?_, le_refl _⟩
    · rw [Nat.add_mul]
      omega
    · rw [Nat.add_mul]
      omega

theorem roundDouble_small (N : Nat) (hN : N < 2 ^ 53) : roundDouble N = N := by
  obtain ⟨h1, h2⟩ := bitLength_spec N
  have hb : bitLength N - 53 = 0 := by
    by_cases h0 : N = 0
    · subst h0
      rfl
    · have h2 := h2 (by omega)
      by_contra hc
      have : 2 ^ 54 ≤ 2 ^ bitLength N := Nat.pow_le_pow_right (by norm_num) (by omega)
      omega
  unfold roundDouble
  rw [hb]
  simp [Nat.mod_one]

/-- For a period below `2 ^ 53 / 11`, the comparison of an integer `n` with the rounded
product `p * 0.7` comes out as the exact comparison of `n` with 70% of `p`. -/
theorem roundDouble_test (p n : Nat) (hp : 0 < p) (hB : 11 * p < 2 ^ 53) :
    n * 2 ^ 53 < roundDouble (p * DOUBLE_0_7) ↔ 10 * n < 7 * p := by
  simp only [DOUBLE_0_7]
  obtain ⟨s, q, hR, hs, ha, hb, hq⟩ :=
    roundDouble_unit (p * 6305039478318694) (by omega)
  constructor
  · intro h
    by_contra hc
    by_cases heq : 10 * n = 7 * p
    · have hs53 : s < 53 := by
        have : 2 ^ s < 2 ^ 53 := by omega
        exact (Nat.pow_lt_pow_iff_right (by norm_num)).1 this
      have hE : (2 : Nat) ^ 53 = 2 ^ (53 - s) * 2 ^ s := by
        rw [← pow_add]
        congr 1
        omega
      have hlt : p * 6305039478318694 < n * 2 ^ (53 - s) * 2 ^ s := by
        rw [Nat.mul_assoc, ← hE]
        omega
      have hdiv : p * 6305039478318694 / 2 ^ s < n * 2 ^ (53 - s) :=
        (Nat.div_lt_iff_lt_mul (Nat.two_pow_pos s)).2 hlt
      have hq2 : q ≤ n * 2 ^ (53 - s) := by omega
      have hle : q * 2 ^ s ≤ n * 2 ^ (53 - s) * 2 ^ s := Nat.mul_le_mul_right _ hq2
      rw [Nat.mul_assoc, ← hE, ← hR] at hle
      omega
    · generalize 2 ^ s = t at hs ha hb
      omega
  · intro h
    generalize 2 ^ s = t at hs ha hb
    omega

theorem roundDouble_pos (p : Nat) (hp : 0 < p) : 0 < roundDouble (p * DOUBLE_0_7) := by
  simp only [DOUBLE_0_7]
  obtain ⟨s, q, _, hs, _, hb, _⟩ := roundDouble_unit (p * 6305039478318694) (by omega)
  generalize 2 ^ s = t at hs hb
  omega

/-- For a period `0 < P < 2 ^ 53 / 11` and any elapsed time `e ≥ 0`, the test of
`bt_Thread_sleep` in double arithmetic is the exact test `P - e < 0.7 P`. -/
theorem bt_Thread_sleep_exact (P e : Int) (hP : 0 < P) (hB : 11 * P < 2 ^ 53) (he : 0 ≤ e) :
    bt_Thread_sleep P e = if 10 * (P - e) < 7 * P then P else P - e := by
  obtain ⟨p, rfl⟩ := Int.eq_ofNat_of_zero_le (le_of_lt hP)
  have hp : 0 < p := by omega
  have hB2 : 11 * p < 2 ^ 53 := by omega
  have hPd : roundDoubleInt (p : Int) = (p : Int) := by
    rw [roundDoubleInt, if_pos (by omega), Int.toNat_ofNat, roundDouble_small p (by omega)]
  have hprod : roundDoubleInt ((p : Int) * (DOUBLE_0_7 : Int))
      = (roundDouble (p * DOUBLE_0_7) : Int) := by
    rw [roundDoubleInt, if_pos (by positivity), ← Int.ofNat_mul, Int.toNat_ofNat]
  unfold bt_Thread_sleep
  rw [hPd, hprod]
  by_cases hneg : (p : Int) - e < 0
  · have hr : roundDoubleInt ((p : Int) - e) ≤ 0 := by
      rw [roundDoubleInt, if_neg (by omega)]
      have : (0 : Int) ≤ (roundDouble (-((p : Int) - e)).toNat : Int) := Int.ofNat_nonneg _
      omega
    have hpos : (0 : Int) < (roundDouble (p * DOUBLE_0_7) : Int) := by
      exact_mod_cast roundDouble_pos p hp
    rw [if_pos (by nlinarith), if_pos (by omega)]
  · obtain ⟨n, hn⟩ := Int.eq_ofNat_of_zero_le (by omega : 0 ≤ (p : Int) - e)
    have hnp : n ≤ p := by omega
    have hnd : roundDoubleInt ((p : Int) - e) = (n : Int) := by
      rw [hn, roundDoubleInt, if_pos (by omega), Int.toNat_ofNat,
        roundDouble_small n (by omega)]
    have key := roundDouble_test p n hp hB2
    rw [hnd, hn]
    by_cases h10 : 10 * n < 7 * p
    · have h1 : (n : Int) * 2 ^ 53 < (roundDouble (p * DOUBLE_0_7) : Int) := by
        exact_mod_cast key.2 h10
      rw [if_pos h1, if_pos (by omega)]
    · have h1 : ¬ ((n : Int) * 2 ^ 53 < (roundDouble (p * DOUBLE_0_7) : Int)) := by
        intro h
        exact h10 (key.1 (by exact_mod_cast h))
      rw [if_neg h1, if_neg (by omega)]

/-! ## Claims about the sleep of bt_Thread -/

/-- Claim C21 as stated fails: with period 100 and elapsed time 50, the elapsed time
does not exceed 70% of the period, yet the computed sleep is the full period 100 and not the
remainder 50. The second part shows why the amended claim bounds the period: at a period of
864721176353293 the elapsed time 259416352905988 exceeds 30% of it, yet the rounded product
`BT_PERIOD * 0.7` equals the remainder and the sleep is the remainder. -/
theorem C21_half_period_counterexample :
    ((0 : Int) < 100 ∧ (0 : Int) ≤ 50 ∧ (50 : Int) ≤ 100 ∧ ¬ (7 * (100 : Int) < 10 * 50) ∧
      bt_Thread_sleep 100 50 = 100 ∧ bt_Thread_sleep 100 50 ≠ 100 - 50) ∧
    ((0 : Int) ≤ 259416352905988 ∧ (259416352905988 : Int) ≤ 864721176353293 ∧
      3 * (864721176353293 : Int) < 10 * 259416352905988 ∧
      bt_Thread_sleep 864721176353293 259416352905988
        = 864721176353293 - 259416352905988 ∧
      bt_Thread_sleep 864721176353293 259416352905988 ≠ 864721176353293) := by
  decide

/-- Claim C21, as amended: for every period `P > 0` with `11 * P < 2 ^ 53` and elapsed time
`0 ≤ e ≤ P`, the computed sleep is the full period `P` when the remainder `P - e` is below
70% of `P`, that is when `e` exceeds 30% of `P`, and the remainder `P - e` otherwise. -/
theorem C21_sleep_full_above_30_percent (P e : Int) (hP : 0 < P) (hB : 11 * P < 2 ^ 53)
    (he0 : 0 ≤ e) (_heP : e ≤ P) :
    (10 * (P - e) < 7 * P ↔ 3 * P < 10 * e) ∧
    (3 * P < 10 * e → bt_Thread_sleep P e = P) ∧
    (10 * e ≤ 3 * P → bt_Thread_sleep P e = P - e) := by
  rw [bt_Thread_sleep_exact P e hP hB he0]
  refine ⟨by constructor <;> intro h <;> omega, fun h => ?_, fun h => ?_⟩
  · rw [if_pos (by omega)]
  · rw [if_neg (by omega)]

/-- Instance of the amended C21 at period 100 and elapsed time 31. -/
theorem C21_sleep_full_above_30_percent_witness :
    (10 * ((100 : Int) - 31) < 7 * 100 ↔ 3 * (100 : Int) < 10 * 31) ∧
    (3 * (100 : Int) < 10 * 31 → bt_Thread_sleep 100 31 = 100) ∧
    (10 * (31 : Int) ≤ 3 * 100 → bt_Thread_sleep 100 31 = 100 - 31) :=
  C21_sleep_full_above_30_percent 100 31 (by decide) (by decide) (by decide) (by decide)

/-! ## Facts about the JSON command reader -/

theorem store_some (j : JsonReader) (i c : Nat) (h : i < j.blejsonbuffer.length) :
    j.store i c = some { blejsonbuffer := j.blejsonbuffer.set i c,
                         blejsonbufptr := j.blejsonbufptr, processed := j.processed } := by
  rw [JsonReader.store, if_pos h]

theorem write_json_char_start (j : JsonReader) (h : 0 < j.blejsonbuffer.length) :
    write_json_char j 0x02
      = some { blejsonbuffer := j.blejsonbuffer.set 0 0x02, blejsonbufptr := 1,
               processed := j.processed } := by
  rw [write_json_char, if_pos rfl, JsonReader.store, if_pos h]

theorem write_json_char_store (j : JsonReader) (c : Nat) (h2 : c ≠ 0x02) (h3 : c ≠ 0x03)
    (h : j.blejsonbufptr < j.blejsonbuffer.length - 3) :
    write_json_char j c
      = some { blejsonbuffer := j.blejsonbuffer.set j.blejsonbufptr c,
               blejsonbufptr := j.blejsonbufptr + 1, processed := j.processed } := by
  rw [write_json_char, if_neg h2, if_neg h3, if_neg (by omega), store_some _ _ _ (by omega)]
  rfl

theorem write_json_char_reset (j : JsonReader) (c : Nat) (h2 : c ≠ 0x02) (h3 : c ≠ 0x03)
    (h : j.blejsonbufptr ≥ j.blejsonbuffer.length - 3) (h0 : 0 < j.blejsonbuffer.length) :
    write_json_char j c
      = some { blejsonbuffer := j.blejsonbuffer.set 0 0, blejsonbufptr := 0,
               processed := j.processed } := by
  rw [write_json_char, if_neg h2, if_neg h3, if_pos h, JsonReader.store, if_pos h0]

theorem write_json_char_end_live (j : JsonReader) (hb : j.blejsonbuffer.getD 0 0 = 0x02)
    (h : j.blejsonbufptr < j.blejsonbuffer.length) :
    write_json_char j 0x03
      = some { blejsonbuffer := (j.blejsonbuffer.set j.blejsonbufptr 0).set 0 0,
               blejsonbufptr := 0,
               processed := j.processed
                 ++ [cString ((j.blejsonbuffer.set j.blejsonbufptr 0).drop 1)] } := by
  rw [write_json_char, if_neg (by decide), if_pos rfl]
  dsimp only
  rw [if_pos hb, store_some _ _ _ h]
  dsimp only [Option.bind]
  rw [JsonReader.store, if_pos (by dsimp only; rw [List.length_set]; omega)]

theorem write_json_char_end_dead (j : JsonReader) (hb : j.blejsonbuffer.getD 0 0 ≠ 0x02)
    (h0 : 0 < j.blejsonbuffer.length) :
    write_json_char j 0x03
      = some { blejsonbuffer := j.blejsonbuffer.set 0 0, blejsonbufptr := 0,
               processed := j.processed } := by
  rw [write_json_char, if_neg (by decide), if_pos rfl]
  dsimp only
  rw [if_neg hb]
  dsimp only [Option.bind]
  rw [JsonReader.store, if_pos h0]

theorem write_json_cons (j : JsonReader) (c : Nat) (rest : List Nat) :
    write_json j (c :: rest) = (write_json_char j c).bind fun j1 => write_json j1 rest := rfl

theorem write_json_append (j : JsonReader) (xs ys : List Nat) :
    write_json j (xs ++ ys) = (write_json j xs).bind fun j1 => write_json j1 ys := by
  induction xs generalizing j with
  | nil => rfl
  | cons c xs ih =>
    rw [List.cons_append, write_json_cons, write_json_cons]
    cases h : write_json_char j c with
    | none => rfl
    | some j1 => exact ih j1

theorem write_json_calls_flatten (j : JsonReader) (chunks : List (List Nat)) :
    write_json_calls j chunks = write_json j chunks.flatten := by
  induction chunks generalizing j with
  | nil => rfl
  | cons c cs ih =>
    rw [List.flatten_cons, write_json_append, write_json_calls]
    cases h : write_json j c with
    | none => rfl
    | some j1 => exact ih j1

/-- Every character is taken without a write outside the array, and the pointer stays at
most `sizeof(blejsonbuffer) - 3` from the start. -/
theorem write_json_char_bounds (N : Nat) (hN : 4 ≤ N) (j : JsonReader) (c : Nat)
    (hl : j.blejsonbuffer.length = N) (hp : j.blejsonbufptr ≤ N - 3) :
    ∃ j1, write_json_char j c = some j1 ∧ j1.blejsonbuffer.length = N ∧
      j1.blejsonbufptr ≤ N - 3 := by
  by_cases h2 : c = 0x02
  · subst h2
    exact ⟨_, write_json_char_start j (by omega), by simp [hl], by dsimp only; omega⟩
  · by_cases h3 : c = 0x03
    · subst h3
      by_cases hb : j.blejsonbuffer.getD 0 0 = 0x02
      · exact ⟨_, write_json_char_end_live j hb (by omega), by simp [hl], Nat.zero_le _⟩
      · exact ⟨_, write_json_char_end_dead j hb (by omega), by simp [hl], Nat.zero_le _⟩
    · by_cases hf : j.blejsonbufptr ≥ j.blejsonbuffer.length - 3
      · exact ⟨_, write_json_char_reset j c h2 h3 hf (by omega), by simp [hl], Nat.zero_le _⟩
      · exact ⟨_, write_json_char_store j c h2 h3 (by omega), by simp [hl],
          by dsimp only; omega⟩

theorem write_json_bounds (N : Nat) (hN : 4 ≤ N) (bs : List Nat) (j : JsonReader)
    (hl : j.blejsonbuffer.length = N) (hp : j.blejsonbufptr ≤ N - 3) :
    ∃ j1, write_json j bs = some j1 ∧ j1.blejsonbuffer.length = N ∧
      j1.blejsonbufptr ≤ N - 3 := by
  induction bs generalizing j with
  | nil => exact ⟨j, rfl, hl, hp⟩
  | cons c bs ih =>
    obtain ⟨j1, e1, hl1, hp1⟩ := write_json_char_bounds N hN j c hl hp
    obtain ⟨j2, e2, hl2, hp2⟩ := ih j1 hl1 hp1
    exact ⟨j2, by rw [write_json_cons, e1]; exact e2, hl2, hp2⟩

theorem getD_zero_set (l : List Nat) (i c : Nat) (hi : 1 ≤ i) :
    (l.set i c).getD 0 0 = l.getD 0 0 := by
  rw [List.getD_eq_getElem?_getD, List.getElem?_set_ne (by omega),
    ← List.getD_eq_getElem?_getD]

theorem getD_zero_set_zero (l : List Nat) (c : Nat) (h : 0 < l.length) :
    (l.set 0 c).getD 0 0 = c := by
  rw [List.getD_eq_getElem?_getD, List.getElem?_set_self (by omega)]
  rfl

/-- While `blejsonbuffer[0]` is not the start mark, message characters leave it so and
nothing is handed to `JSON_Process`. -/
theorem write_json_dead (N : Nat) (hN : 4 ≤ N) (d : List Nat) (hd : plainText d)
    (j : JsonReader) (hl : j.blejsonbuffer.length = N) (hp : j.blejsonbufptr ≤ N - 3)
    (hb : j.blejsonbuffer.getD 0 0 ≠ 0x02) :
    ∃ j1, write_json j d = some j1 ∧ j1.blejsonbuffer.length = N ∧
      j1.blejsonbufptr ≤ N - 3 ∧ j1.blejsonbuffer.getD 0 0 ≠ 0x02 ∧
      j1.processed = j.processed := by
  induction d generalizing j with
  | nil => exact ⟨j, rfl, hl, hp, hb, rfl⟩
  | cons c d ih =>
    have hc := hd c (List.mem_cons_self _ _)
    have hd2 : plainText d := fun x hx => hd x (List.mem_cons_of_mem _ hx)
    by_cases hf : j.blejsonbufptr ≥ j.blejsonbuffer.length - 3
    · obtain ⟨j2, e2, hl2, hp2, hb2, hq2⟩ := ih hd2
        { blejsonbuffer := j.blejsonbuffer.set 0 0, blejsonbufptr := 0,
          processed := j.processed }
        (by simp [hl]) (Nat.zero_le _)
        (by dsimp only; rw [getD_zero_set_zero _ _ (by omega)]; decide)
      refine ⟨j2, ?_, hl2, hp2, hb2, hq2⟩
      rw [write_json_cons, write_json_char_reset j c hc.1 hc.2 hf (by omega)]
      exact e2
    · obtain ⟨j2, e2, hl2, hp2, hb2, hq2⟩ := ih hd2
        { blejsonbuffer := j.blejsonbuffer.set j.blejsonbufptr c,
          blejsonbufptr := j.blejsonbufptr + 1, processed := j.processed }
        (by simp [hl]) (by dsimp only; omega)
        (by
          dsimp only
          by_cases h0 : j.blejsonbufptr = 0
          · rw [h0, getD_zero_set_zero _ _ (by omega)]
            exact hc.1
          · rw [getD_zero_set _ _ _ (by omega)]
            exact hb)
      refine ⟨j2, ?_, hl2, hp2, hb2, hq2⟩
      rw [write_json_cons, write_json_char_store j c hc.1 hc.2 (by omega)]
      exact e2

/-- A run of message characters that does not fit behind the start mark ends with the start
mark gone, and nothing is handed to `JSON_Process`. -/
theorem write_json_overflow (N : Nat) (hN : 4 ≤ N) (d : List Nat) (hd : plainText d)
    (j : JsonReader) (hl : j.blejsonbuffer.length = N) (hp : j.blejsonbufptr ≤ N - 3)
    (hp1 : 1 ≤ j.blejsonbufptr) (hlong : N - 3 < j.blejsonbufptr + d.length) :
    ∃ j1, write_json j d = some j1 ∧ j1.blejsonbuffer.length = N ∧
      j1.blejsonbufptr ≤ N - 3 ∧ j1.blejsonbuffer.getD 0 0 ≠ 0x02 ∧
      j1.processed = j.processed := by
  induction d generalizing j with
  | nil => simp only [List.length_nil] at hlong; omega
  | cons c d ih =>
    have hc := hd c (List.mem_cons_self _ _)
    have hd2 : plainText d := fun x hx => hd x (List.mem_cons_of_mem _ hx)
    simp only [List.length_cons] at hlong
    by_cases hf : j.blejsonbufptr ≥ j.blejsonbuffer.length - 3
    · obtain ⟨j2, e2, hl2, hp2, hb2, hq2⟩ := write_json_dead N hN d hd2
        { blejsonbuffer := j.blejsonbuffer.set 0 0, blejsonbufptr := 0,
          processed := j.processed }
        (by simp [hl]) (Nat.zero_le _)
        (by dsimp only; rw [getD_zero_set_zero _ _ (by omega)]; decide)
      refine ⟨j2, ?_, hl2, hp2, hb2, hq2⟩
      rw [write_json_cons, write_json_char_reset j c hc.1 hc.2 hf (by omega)]
      exact e2
    · obtain ⟨j2, e2, hl2, hp2, hb2, hq2⟩ := ih hd2
        { blejsonbuffer := j.blejsonbuffer.set j.blejsonbufptr c,
          blejsonbufptr := j.blejsonbufptr + 1, processed := j.processed }
        (by simp [hl]) (by dsimp only; omega) (by dsimp only; omega)
        (by dsimp only; omega)
      refine ⟨j2, ?_, hl2, hp2, hb2, hq2⟩
      rw [write_json_cons, write_json_char_store j c hc.1 hc.2 (by omega)]
      exact e2

/-- A run of message characters that fits is stored behind what is already there. -/
theorem write_json_fits (N : Nat) (d : List Nat) (hd : plainText d)
    (j : JsonReader) (hl : j.blejsonbuffer.length = N)
    (hfit : j.blejsonbufptr + d.length ≤ N - 3) (hN : 4 ≤ N) :
    ∃ j1, write_json j d = some j1 ∧ j1.blejsonbuffer.length = N ∧
      j1.blejsonbufptr = j.blejsonbufptr + d.length ∧
      j1.blejsonbuffer.take j1.blejsonbufptr
        = j.blejsonbuffer.take j.blejsonbufptr ++ d ∧
      j1.processed = j.processed := by
  induction d generalizing j with
  | nil => exact ⟨j, rfl, hl, rfl, by simp, rfl⟩
  | cons c d ih =>
    have hc := hd c (List.mem_cons_self _ _)
    have hd2 : plainText d := fun x hx => hd x (List.mem_cons_of_mem _ hx)
    simp only [List.length_cons] at hfit
    obtain ⟨j2, e2, hl2, hp2, ht2, hq2⟩ := ih hd2
      { blejsonbuffer := j.blejsonbuffer.set j.blejsonbufptr c,
        blejsonbufptr := j.blejsonbufptr + 1, processed := j.processed }
      (by simp [hl]) (by dsimp only; omega)
    dsimp only at hp2 ht2 hq2
    refine ⟨j2, ?_, hl2, by rw [hp2, List.length_cons]; omega, ?_, hq2⟩
    · rw [write_json_cons, write_json_char_store j c hc.1 hc.2 (by omega)]
      exact e2
    · rw [ht2, take_succ_set _ _ _ (by omega), List.append_assoc]
      rfl

theorem cString_append_nul (d rest : List Nat) : cString (d ++ 0 :: rest) = cString d := by
  induction d with
  | nil => simp [cString]
  | cons c d ih =>
    unfold cString at ih ⊢
    rw [List.cons_append]
    by_cases h : c = 0
    · subst h
      simp
    · have hc : (c != 0) = true := by simpa using h
      rw [List.takeWhile_cons, List.takeWhile_cons]
      simp only [hc, if_true]
      rw [ih]

/-- A message whose text is too long: nothing is handed to `JSON_Process` and the buffer is
empty afterwards. -/
theorem write_json_message_long (N : Nat) (hN : 4 ≤ N) (j : JsonReader)
    (hl : j.blejsonbuffer.length = N) (d : List Nat) (hd : plainText d)
    (hlong : N - 4 < d.length) :
    ∃ j1, write_json j ([0x02] ++ d ++ [0x03]) = some j1 ∧ j1.blejsonbuffer.length = N ∧
      j1.processed = j.processed ∧ j1.blejsonbufptr = 0 ∧ j1.blejsonbuffer.getD 0 0 = 0 := by
  obtain ⟨j1, e1, hl1, _, hb1, hq1⟩ := write_json_overflow N hN d hd
    { blejsonbuffer := j.blejsonbuffer.set 0 0x02, blejsonbufptr := 1,
      processed := j.processed }
    (by simp [hl]) (by dsimp only; omega) (le_refl _) (by dsimp only; omega)
  refine ⟨{ blejsonbuffer := j1.blejsonbuffer.set 0 0, blejsonbufptr := 0,
            processed := j1.processed }, ?_, by simp [hl1], hq1, rfl,
          getD_zero_set_zero _ _ (by omega)⟩
  rw [List.append_assoc, List.singleton_append, write_json_cons,
    write_json_char_start j (by omega)]
  dsimp only [Option.bind]
  rw [write_json_append, e1]
  dsimp only [Option.bind]
  rw [write_json_cons, write_json_char_end_dead j1 hb1 (by omega)]
  rfl

/-- A message whose text fits: the text, as a C string, is handed to `JSON_Process` and the
buffer is empty afterwards. -/
theorem write_json_message_short (N : Nat) (hN : 4 ≤ N) (j : JsonReader)
    (hl : j.blejsonbuffer.length = N) (d : List Nat) (hd : plainText d)
    (hshort : d.length ≤ N - 4) :
    ∃ j1, write_json j ([0x02] ++ d ++ [0x03]) = some j1 ∧ j1.blejsonbuffer.length = N ∧
      j1.processed = j.processed ++ [cString d] ∧ j1.blejsonbufptr = 0 ∧
      j1.blejsonbuffer.getD 0 0 = 0 := by
  obtain ⟨j1, e1, hl1, hp1, ht1, hq1⟩ := write_json_fits N d hd
    { blejsonbuffer := j.blejsonbuffer.set 0 0x02, blejsonbufptr := 1,
      processed := j.processed }
    (by simp [hl]) (by dsimp only; omega) hN
  dsimp only at hp1 ht1 hq1
  have h1 : (j.blejsonbuffer.set 0 0x02).take 1 = [0x02] := by
    rw [take_succ_set _ _ _ (by omega)]
    rfl
  rw [h1] at ht1
  have hs1 : j1.blejsonbuffer = [0x02] ++ d ++ j1.blejsonbuffer.drop j1.blejsonbufptr := by
    rw [← ht1, List.take_append_drop]
  have hb1 : j1.blejsonbuffer.getD 0 0 = 0x02 := by
    rw [hs1]
    rfl
  have hs2 : (j1.blejsonbuffer.set j1.blejsonbufptr 0).drop 1
      = d ++ 0 :: (j1.blejsonbuffer.set j1.blejsonbufptr 0).drop (j1.blejsonbufptr + 1) := by
    have ht2 := take_succ_set j1.blejsonbuffer j1.blejsonbufptr 0 (by omega)
    rw [ht1] at ht2
    have hs := List.take_append_drop (j1.blejsonbufptr + 1)
      (j1.blejsonbuffer.set j1.blejsonbufptr 0)
    rw [ht2] at hs
    calc (j1.blejsonbuffer.set j1.blejsonbufptr 0).drop 1
        = ([0x02] ++ d ++ [0]
            ++ (j1.blejsonbuffer.set j1.blejsonbufptr 0).drop (j1.blejsonbufptr + 1)).drop 1 := by
          rw [hs]
      _ = d ++ 0 :: (j1.blejsonbuffer.set j1.blejsonbufptr 0).drop (j1.blejsonbufptr + 1) := by
          simp
  refine ⟨{ blejsonbuffer := (j1.blejsonbuffer.set j1.blejsonbufptr 0).set 0 0,
            blejsonbufptr := 0,
            processed := j1.processed
              ++ [cString ((j1.blejsonbuffer.set j1.blejsonbufptr 0).drop 1)] },
          ?_, by simp [hl1], ?_, rfl, getD_zero_set_zero _ _ (by simp; omega)⟩
  · rw [List.append_assoc, List.singleton_append, write_json_cons,
      write_json_char_start j (by omega)]
    dsimp only [Option.bind]
    rw [write_json_append, e1]
    dsimp only [Option.bind]
    rw [write_json_cons, write_json_char_end_live j1 hb1 (by omega)]
    rfl
  · dsimp only
    rw [hq1, hs2, cString_append_nul]

/-! ## Claims about the JSON command reader -/

/-- Claim C22: with `JSON_BUF_SIZE ≥ 4`, whatever bytes are delivered to `write_json` from
the empty buffer, in however many calls, every store into `blejsonbuffer` (the NUL written on
`0x03` included) falls inside the array: the calls come back, with the same result as one
call on all the bytes, and leave the pointer at most `JSON_BUF_SIZE - 3` from the start.
After that, a message whose text has more than `JSON_BUF_SIZE - 4` characters is not handed
to `JSON_Process` and leaves the buffer empty, and the next message that fits is handed to
`JSON_Process`, as is any message that fits. -/
theorem C22_write_json_in_bounds (N : Nat) (hN : 4 ≤ N) (chunks : List (List Nat)) :
    (JsonReader.init N).blejsonbuffer.length = N ∧
    ∃ j, write_json_calls (JsonReader.init N) chunks = some j ∧
      write_json (JsonReader.init N) chunks.flatten = some j ∧
      j.blejsonbuffer.length = N ∧ j.blejsonbufptr ≤ N - 3 ∧
      (∀ d, plainText d → N - 4 < d.length →
        ∃ j1, write_json j ([0x02] ++ d ++ [0x03]) = some j1 ∧
          j1.processed = j.processed ∧ j1.blejsonbufptr = 0 ∧
          j1.blejsonbuffer.getD 0 0 = 0 ∧
          ∀ d2, plainText d2 → d2.length ≤ N - 4 →
            ∃ j2, write_json j1 ([0x02] ++ d2 ++ [0x03]) = some j2 ∧
              j2.processed = j.processed ++ [cString d2]) ∧
      (∀ d, plainText d → d.length ≤ N - 4 →
        ∃ j2, write_json j ([0x02] ++ d ++ [0x03]) = some j2 ∧
          j2.processed = j.processed ++ [cString d] ∧ j2.blejsonbufptr = 0 ∧
          j2.blejsonbuffer.getD 0 0 = 0) := by
  have hl0 : (JsonReader.init N).blejsonbuffer.length = N := List.length_replicate _ _
  obtain ⟨j, e, hl, hp⟩ := write_json_bounds N hN chunks.flatten (JsonReader.init N) hl0
    (Nat.zero_le _)
  refine ⟨hl0, j, by rw [write_json_calls_flatten]; exact e, e, hl, hp, ?_, ?_⟩
  · intro d hd hlong
    obtain ⟨j1, e1, hl1, hq1, hp1, hb1⟩ := write_json_message_long N hN j hl d hd hlong
    refine ⟨j1, e1, hq1, hp1, hb1, fun d2 hd2 hs2 => ?_⟩
    obtain ⟨j2, e2, _, hq2, _, _⟩ := write_json_message_short N hN j1 hl1 d2 hd2 hs2
    exact ⟨j2, e2, by rw [hq2, hq1]⟩
  · intro d hd hshort
    obtain ⟨j2, e2, _, hq2, hp2, hb2⟩ := write_json_message_short N hN j hl d hd hshort
    exact ⟨j2, e2, hq2, hp2, hb2⟩

/-- Instance of C22 at `JSON_BUF_SIZE = 8`, after a complete message and the start of
another delivered in three calls. -/
theorem C22_write_json_in_bounds_witness :
    (JsonReader.init 8).blejsonbuffer.length = 8 ∧
    ∃ j, write_json_calls (JsonReader.init 8) [[0x02, 0x41], [0x42, 0x03, 0x02], [0x43]]
        = some j ∧
      write_json (JsonReader.init 8) [[0x02, 0x41], [0x42, 0x03, 0x02], [0x43]].flatten
        = some j ∧
      j.blejsonbuffer.length = 8 ∧ j.blejsonbufptr ≤ 8 - 3 ∧
      (∀ d, plainText d → 8 - 4 < d.length →
        ∃ j1, write_json j ([0x02] ++ d ++ [0x03]) = some j1 ∧
          j1.processed = j.processed ∧ j1.blejsonbufptr = 0 ∧
          j1.blejsonbuffer.getD 0 0 = 0 ∧
          ∀ d2, plainText d2 → d2.length ≤ 8 - 4 →
            ∃ j2, write_json j1 ([0x02] ++ d2 ++ [0x03]) = some j2 ∧
              j2.processed = j.processed ++ [cString d2]) ∧
      (∀ d, plainText d → d.length ≤ 8 - 4 →
        ∃ j2, write_json j ([0x02] ++ d ++ [0x03]) = some j2 ∧
          j2.processed = j.processed ++ [cString d] ∧ j2.blejsonbufptr = 0 ∧
          j2.blejsonbuffer.getD 0 0 = 0) :=
  C22_write_json_in_bounds 8 (by decide) [[0x02, 0x41], [0x42, 0x03, 0x02], [0x43]]


/-! ## Facts about reading the trainer frame back -/

theorem flatMap_stuffed_length (bs : List Nat) :
    (bs.flatMap stuffed).length = bs.length + stuffCount bs := by
  induction bs with
  | nil => rfl
  | cons b bs ih =>
    rw [List.flatMap_cons, List.length_append, ih]
    unfold stuffCount
    by_cases h : b = 0x7E ∨ b = 0x7D
    · have h2 : (b == 0x7E || b == 0x7D) = true := by
        rcases h with h | h <;> simp [h]
      rw [List.countP_cons, if_pos h2]
      simp only [stuffed, if_pos h, List.length_cons, List.length_nil]
      omega
    · have h2 : ¬ ((b == 0x7E || b == 0x7D) = true) := by
        simpa using h
      rw [List.countP_cons, if_neg h2]
      simp only [stuffed, if_neg h, List.length_cons, List.length_nil]
      omega

theorem stuffCount_eq_zero (bs : List Nat) :
    stuffCount bs = 0 ↔ ∀ b ∈ bs, b ≠ 0x7E ∧ b ≠ 0x7D := by
  unfold stuffCount
  rw [List.countP_eq_zero]
  constructor
  · intro h b hb
    simpa using h b hb
  · intro h b hb
    simpa using h b hb

theorem unstuff_stuffed_append (b : Nat) (rest : List Nat) :
    unstuff (stuffed b ++ rest) = b :: unstuff rest := by
  by_cases h : b = 0x7E ∨ b = 0x7D
  · rw [stuffed, if_pos h]
    rcases h with h | h <;> subst h <;> simp [unstuff]
  · rw [stuffed, if_neg h]
    have h7 : b ≠ 0x7D := fun e => h (Or.inr e)
    cases rest with
    | nil => simp [unstuff]
    | cons c r => simp [unstuff, h7]

theorem unstuff_flatMap_stuffed (bs : List Nat) : unstuff (bs.flatMap stuffed) = bs := by
  induction bs with
  | nil => rfl
  | cons b bs ih => rw [List.flatMap_cons, unstuff_stuffed_append, ih]

theorem testBit_000f (k : Nat) : (0x0F : Nat).testBit k = decide (k < 4) := by
  have h : (0x0F : Nat) = 2 ^ 4 - 1 := by norm_num
  rw [h, Nat.testBit_two_pow_sub_one]

theorem testBit_00ff (k : Nat) : (0xFF : Nat).testBit k = decide (k < 8) := by
  have h : (0xFF : Nat) = 2 ^ 8 - 1 := by norm_num
  rw [h, Nat.testBit_two_pow_sub_one]

theorem testBit_0fff (k : Nat) : (0x0FFF : Nat).testBit k = decide (k < 12) := by
  have h : (0x0FFF : Nat) = 2 ^ 12 - 1 := by norm_num
  rw [h, Nat.testBit_two_pow_sub_one]

theorem unpack_first (c0 c1 : Nat) :
    (c0 &&& 0xFF) |||
      ((((c0 &&& 0x0F00) >>> 4) ||| ((c1 &&& 0x00F0) >>> 4)) &&& 0xF0) <<< 4
      = c0 &&& 0x0FFF := by
  apply Nat.eq_of_testBit_eq
  intro j
  simp only [Nat.testBit_or, Nat.testBit_and, Nat.testBit_shiftRight, Nat.testBit_shiftLeft,
    testBit_0f00, testBit_00f0, testBit_00ff, testBit_0fff]
  by_cases h8 : j < 8
  · have a1 : ¬ (8 ≤ j) := by omega
    have a2 : j < 12 := by omega
    by_cases h4 : 4 ≤ j
    · have a3 : ¬ (8 ≤ 4 + (j - 4)) := by omega
      have a4 : ¬ (4 ≤ j - 4) := by omega
      simp [h8, a1, a2, h4, a3, a4]
    · simp [h8, a1, a2, h4]
  · by_cases h12 : j < 12
    · have a1 : 4 ≤ j := by omega
      have a2 : 4 + (j - 4) = j := by omega
      have a3 : 8 ≤ j := by omega
      have a4 : 4 ≤ j - 4 := by omega
      have a5 : j - 4 < 8 := by omega
      have a6 : ¬ (j < 8) := by omega
      simp [h8, h12, a1, a2, a3, a4, a5, a6]
    · have a1 : ¬ (j - 4 < 8) := by omega
      simp [h8, h12, a1]

theorem unpack_second (c0 c1 : Nat) :
    ((((c1 &&& 0x000F) <<< 4) ||| ((c1 &&& 0x0F00) >>> 8)) >>> 4) |||
      (((((c0 &&& 0x0F00) >>> 4) ||| ((c1 &&& 0x00F0) >>> 4)) &&& 0x0F) <<< 4) |||
      (((((c1 &&& 0x000F) <<< 4) ||| ((c1 &&& 0x0F00) >>> 8)) &&& 0x0F) <<< 8)
      = c1 &&& 0x0FFF := by
  apply Nat.eq_of_testBit_eq
  intro j
  simp only [Nat.testBit_or, Nat.testBit_and, Nat.testBit_shiftRight, Nat.testBit_shiftLeft,
    testBit_0f00, testBit_00f0, testBit_000f, testBit_0fff]
  by_cases h4 : j < 4
  · have a1 : 4 ≤ 4 + j := by omega
    have a2 : 4 + j - 4 = j := by omega
    have a3 : ¬ (8 ≤ 8 + (4 + j)) ∨ ¬ (8 + (4 + j) < 12) := by omega
    have a4 : ¬ (8 + (4 + j) < 12) := by omega
    have a5 : ¬ (4 ≤ j) := by omega
    have a6 : ¬ (8 ≤ j) := by omega
    have a7 : j < 12 := by omega
    simp [h4, a1, a2, a4, a5, a6, a7]
  · by_cases h8 : j < 8
    · have a1 : ¬ (4 + j < 4) := by omega
      have a2 : ¬ (8 ≤ 8 + (4 + j) ∧ 8 + (4 + j) < 12) := by omega
      have a3 : 4 ≤ j := by omega
      have a4 : j - 4 < 4 := by omega
      have a5 : ¬ (8 ≤ 4 + (j - 4)) := by omega
      have a6 : 4 + (j - 4) = j := by omega
      have a7 : ¬ (8 ≤ j) := by omega
      have a8 : j < 12 := by omega
      have a9 : ¬ (8 + (4 + j) < 12) := by omega
      have a10 : 4 + j - 4 = j := by omega
      simp [h4, h8, a1, a3, a4, a5, a6, a7, a8, a9, a10]
    · by_cases h12 : j < 12
      · have a1 : ¬ (8 + (4 + j) < 12) := by omega
        have a3 : 4 ≤ j := by omega
        have a4 : ¬ (j - 4 < 4) := by omega
        have a7 : 8 ≤ j := by omega
        have a8 : j - 8 < 4 := by omega
        have a9 : ¬ (4 ≤ j - 8) := by omega
        have a10 : 8 + (j - 8) = j := by omega
        have a11 : 4 ≤ 4 + j := by omega
        simp [h4, h8, h12, a1, a3, a4, a7, a8, a9, a10, a11]
      · have a1 : ¬ (8 + (4 + j) < 12) := by omega
        have a4 : ¬ (j - 4 < 4) := by omega
        have a8 : ¬ (j - 8 < 4) := by omega
        have a11 : 4 ≤ 4 + j := by omega
        simp [h4, h8, h12, a1, a4, a8, a11]

theorem unpackGroups_packPair (c0 c1 : Nat) (rest : List Nat) :
    unpackGroups (packPair c0 c1 ++ rest)
      = [c0 &&& 0x0FFF, c1 &&& 0x0FFF] ++ unpackGroups rest := by
  simp only [packPair, List.cons_append, List.nil_append, unpackGroups, unpackPair]
  rw [unpack_first, unpack_second]
  rfl

theorem trainerDecode_frame (ch : List Nat) (hlen : ch.length = 16) :
    trainerDecode (trainerFrame ch) = ch.map fun c => c &&& 0x0FFF := by
  have h1 : ((trainerFrame ch).drop 1).dropLast.dropLast
      = (trainerPayload ch).flatMap stuffed := by
    simp only [trainerFrame, List.singleton_append, List.drop_succ_cons, List.drop_zero,
      List.cons_append, List.nil_append]
    rw [List.dropLast_concat, List.dropLast_concat]
  unfold trainerDecode
  rw [h1, unstuff_flatMap_stuffed]
  obtain ⟨c0, c1, c2, c3, c4, c5, c6, c7, c8, c9, c10, c11, c12, c13, c14, c15, rfl⟩ :=
    list_length_16 ch hlen
  simp only [trainerPayload, List.drop_succ_cons, List.drop_zero, packedChannels]
  have hr : List.range 8 = [0, 1, 2, 3, 4, 5, 6, 7] := by decide
  rw [hr]
  simp only [List.flatMap_cons, List.flatMap_nil, List.getD_cons_succ, List.getD_cons_zero,
    Nat.mul_zero, Nat.mul_one, Nat.reduceMul, Nat.reduceAdd, Nat.zero_add,
    unpackGroups_packPair, List.map_cons, List.map_nil, List.append_nil]
  simp [unpackGroups, unpackPair, unpack_first, unpack_second]

theorem trainerFrame_length_count (ch : List Nat) :
    (trainerFrame ch).length = 28 + stuffCount (packedChannels ch) := by
  rw [trainerFrame_length, flatMap_stuffed_length, packedChannels_length]
  omega

/-! ## Claims about reading the trainer frame back -/

/-- Claim C23, as amended: for every 16-channel array `ch`, when `buffer` has room for the frame, the
frame `setTrainer` returns, with its first byte and its last two bytes removed, every pair
`0x7D, b` replaced by `b XOR 0x20`, the leading `0x80` dropped and each 3-byte group read as
`c0 = b1 | ((b2 & 0xF0) << 4)`, `c1 = (b3 >> 4) | ((b2 & 0x0F) << 4) | ((b3 & 0x0F) << 8)`,
gives back `ch[i] & 0x0FFF` for every `i` in `0..15`. -/
theorem C23_frame_decodes_to_12_bits (ch : List Nat) (t : TrainerBuf) (hlen : ch.length = 16)
    (hroom : 28 + stuffCount (packedChannels ch) ≤ t.buffer.length) :
    ∃ r, setTrainer ch t = some r ∧
      trainerDecode r.addr = ch.map (fun c => c &&& 0x0FFF) ∧
      (trainerDecode r.addr).length = 16 ∧
      ∀ i, i < 16 → (trainerDecode r.addr).getD i 0 = ch.getD i 0 &&& 0x0FFF := by
  obtain ⟨tb, h, _⟩ := setTrainer_frame ch t (by rw [trainerFrame_length_count]; exact hroom)
  refine ⟨_, h, trainerDecode_frame ch hlen, ?_, ?_⟩
  · dsimp only
    rw [trainerDecode_frame ch hlen, List.length_map, hlen]
  · intro i hi
    dsimp only
    rw [trainerDecode_frame ch hlen]
    obtain ⟨c0, c1, c2, c3, c4, c5, c6, c7, c8, c9, c10, c11, c12, c13, c14, c15, rfl⟩ :=
      list_length_16 ch hlen
    interval_cases i <;> rfl

/-- Instance of the amended C23 at the channel array whose packed bytes are all stuffed. -/
theorem C23_frame_decodes_to_12_bits_witness :
    ∃ r, setTrainer chanAllStuffed (TrainerBuf.init 51) = some r ∧
      trainerDecode r.addr = chanAllStuffed.map (fun c => c &&& 0x0FFF) ∧
      (trainerDecode r.addr).length = 16 ∧
      ∀ i, i < 16 →
        (trainerDecode r.addr).getD i 0 = chanAllStuffed.getD i 0 &&& 0x0FFF :=
  C23_frame_decodes_to_12_bits chanAllStuffed (TrainerBuf.init 51) (by decide) (by decide)

/-- Claim C23 as stated fails when `buffer` is too short for the frame: with
`BLUETOOTH_LINE_LENGTH = 32` and a 16-channel array of values inside `[988, 2012]` whose
frame has 44 bytes, `setTrainer` returns no frame, so none that decodes to the channel
values. -/
theorem C23_small_buffer_counterexample :
    chanInRangeStuffed.length = 16 ∧
    (∀ c ∈ chanInRangeStuffed, 988 ≤ c ∧ c ≤ 2012) ∧
    (TrainerBuf.init 32).buffer.length = 33 ∧
    28 + stuffCount (packedChannels chanInRangeStuffed) = 44 ∧
    ¬ (∃ r, setTrainer chanInRangeStuffed (TrainerBuf.init 32) = some r ∧
        trainerDecode r.addr = chanInRangeStuffed.map (fun c => c &&& 0x0FFF)) := by
  have h1 : setTrainer chanInRangeStuffed (TrainerBuf.init 32) = none := by decide
  refine ⟨by decide, by decide, by decide, by decide, ?_⟩
  rw [h1]
  simp

/-- Claim C24, as amended: for every 16-channel array, when `buffer` has room for the frame, the length
`setTrainer` returns is 28 plus the number of the 24 packed channel bytes equal to `0x7E` or
`0x7D`; it is at least 28 and at most 52; it is 28 exactly when no packed channel byte equals
`0x7E` or `0x7D`; and 52 is reached by some channel array. -/
theorem C24_length_counts_stuffed_bytes (ch : List Nat) (t : TrainerBuf)
    (_hlen : ch.length = 16)
    (hroom : 28 + stuffCount (packedChannels ch) ≤ t.buffer.length) :
    (∃ r, setTrainer ch t = some r ∧
      r.len = 28 + stuffCount (packedChannels ch) ∧
      r.addr.length = r.len ∧
      28 ≤ r.len ∧ r.len ≤ 52 ∧
      (r.len = 28 ↔ ∀ b ∈ packedChannels ch, b ≠ 0x7E ∧ b ≠ 0x7D)) ∧
    (packedChannels ch).length = 24 ∧
    (chanAllStuffed.length = 16 ∧
      ∀ t2 : TrainerBuf, 52 ≤ t2.buffer.length →
        ∃ r, setTrainer chanAllStuffed t2 = some r ∧ r.len = 52) := by
  have hc := trainerFrame_length_count ch
  have hle := trainerFrame_length_le ch
  obtain ⟨tb, h, _⟩ := setTrainer_frame ch t (by rw [hc]; exact hroom)
  refine ⟨⟨_, h, hc, rfl, by dsimp only; omega, hle, ?_⟩, packedChannels_length ch, rfl, ?_⟩
  · dsimp only
    rw [hc, ← stuffCount_eq_zero]
    omega
  · intro t2 h2
    have hc2 : (trainerFrame chanAllStuffed).length = 52 := by decide
    obtain ⟨tb2, h3, _⟩ := setTrainer_frame chanAllStuffed t2 (by rw [hc2]; exact h2)
    exact ⟨_, h3, hc2⟩

/-- Instance of the amended C24 at `[992]*16`, where no packed byte is stuffed and the length is 28. -/
theorem C24_length_counts_stuffed_bytes_witness :
    (∃ r, setTrainer (List.replicate 16 992) (TrainerBuf.init 27) = some r ∧
      r.len = 28 + stuffCount (packedChannels (List.replicate 16 992)) ∧
      r.addr.length = r.len ∧
      28 ≤ r.len ∧ r.len ≤ 52 ∧
      (r.len = 28 ↔ ∀ b ∈ packedChannels (List.replicate 16 992), b ≠ 0x7E ∧ b ≠ 0x7D)) ∧
    (packedChannels (List.replicate 16 992)).length = 24 ∧
    (chanAllStuffed.length = 16 ∧
      ∀ t2 : TrainerBuf, 52 ≤ t2.buffer.length →
        ∃ r, setTrainer chanAllStuffed t2 = some r ∧ r.len = 52) :=
  C24_length_counts_stuffed_bytes (List.replicate 16 992) (TrainerBuf.init 27) (by decide)
    (by decide)

/-- Claim C24 as stated fails when `buffer` is too short for the frame: with
`BLUETOOTH_LINE_LENGTH = 32` and a 16-channel array of values inside `[988, 2012]` with 16
stuffed packed bytes, `setTrainer` returns no length, so not 44; and with
`BLUETOOTH_LINE_LENGTH = 50` the array whose 24 packed bytes are all stuffed gets no length,
so 52 is not reached by it. -/
theorem C24_small_buffer_counterexample :
    chanInRangeStuffed.length = 16 ∧
    (∀ c ∈ chanInRangeStuffed, 988 ≤ c ∧ c ≤ 2012) ∧
    (TrainerBuf.init 32).buffer.length = 33 ∧
    stuffCount (packedChannels chanInRangeStuffed) = 16 ∧
    ¬ (∃ r, setTrainer chanInRangeStuffed (TrainerBuf.init 32) = some r ∧
        r.len = 28 + stuffCount (packedChannels chanInRangeStuffed)) ∧
    stuffCount (packedChannels chanAllStuffed) = 24 ∧
    ¬ (∃ r, setTrainer chanAllStuffed (TrainerBuf.init 50) = some r ∧ r.len = 52) := by
  have h1 : setTrainer chanInRangeStuffed (TrainerBuf.init 32) = none := by decide
  have h2 : setTrainer chanAllStuffed (TrainerBuf.init 50) = none := by decide
  refine ⟨by decide, by decide, by decide, by decide, ?_, by decide, ?_⟩
  · rw [h1]
    simp
  · rw [h2]
    simp

/-! ## Facts about the bounds of the frame parser -/

theorem SbusRx_step_bounds (s : SbusRx) (cur : Nat)
    (h : s.state_ ≤ 25 ∧ s.buf_.length = 25 ∧ (1 ≤ s.state_ → s.buf_.getD 0 0 = 0x0F)) :
    (SbusRx_step s cur).1.state_ ≤ 25 ∧ (SbusRx_step s cur).1.buf_.length = 25 ∧
    (1 ≤ (SbusRx_step s cur).1.state_ → (SbusRx_step s cur).1.buf_.getD 0 0 = 0x0F) := by
  obtain ⟨h1, h2, h3⟩ := h
  unfold SbusRx_step
  simp only [SBUS_FRAME_LEN, HEADER_]
  split_ifs with a b c d
  · refine ⟨by dsimp only; omega, by simp [h2], fun _ => ?_⟩
    dsimp only
    rw [a, b.1, List.getD_eq_getElem?_getD, List.getElem?_set_self (by omega)]
    rfl
  · exact ⟨by simp, h2, fun h => by simp at h⟩
  · refine ⟨by dsimp only; omega, by simp [h2], fun _ => ?_⟩
    dsimp only
    rw [List.getD_eq_getElem?_getD, List.getElem?_set_ne (by omega),
      ← List.getD_eq_getElem?_getD]
    exact h3 (by omega)
  · exact ⟨by simp, h2, fun h => by simp at h⟩
  · exact ⟨by simp, h2, fun h => by simp at h⟩

theorem SbusRx_feed_bounds (s : SbusRx) (bs : List Nat)
    (h : s.state_ ≤ 25 ∧ s.buf_.length = 25 ∧ (1 ≤ s.state_ → s.buf_.getD 0 0 = 0x0F)) :
    (SbusRx_feed s bs).state_ ≤ 25 ∧ (SbusRx_feed s bs).buf_.length = 25 ∧
    (1 ≤ (SbusRx_feed s bs).state_ → (SbusRx_feed s bs).buf_.getD 0 0 = 0x0F) := by
  induction bs generalizing s with
  | nil => exact h
  | cons b bs ih =>
    rw [SbusRx_feed_cons]
    exact ih _ (SbusRx_step_bounds s b h)

/-- The loop body stores the byte at the index `SbusRx_writeIndex` names and advances
`state_` past it, or leaves `buf_` alone when there is none. -/
theorem SbusRx_step_write (s : SbusRx) (cur : Nat) :
    (∀ i, SbusRx_writeIndex s cur = some i →
      i = s.state_ ∧ (SbusRx_step s cur).1.buf_ = s.buf_.set i cur ∧
      (SbusRx_step s cur).1.state_ = i + 1) ∧
    (SbusRx_writeIndex s cur = none → (SbusRx_step s cur).1.buf_ = s.buf_) := by
  unfold SbusRx_writeIndex SbusRx_step
  split_ifs <;> simp

/-! ## Claims about the bounds of the frame parser -/

/-- Claim C25: after any sequence of bytes read from the initial parser state, `state_` is
between 0 and 25 and `buf_` has its 25 bytes; whenever `state_ ≥ 1`, `buf_[0]` is the header
`0x0F`; and every write `buf_[state_++]` that the next byte causes uses an index in
`0..24`. -/
theorem C25_parser_bounds (bs : List Nat) :
    SbusRx.init.state_ = 0 ∧
    (SbusRx_feed SbusRx.init bs).state_ ≤ 25 ∧
    (SbusRx_feed SbusRx.init bs).buf_.length = 25 ∧
    (1 ≤ (SbusRx_feed SbusRx.init bs).state_ →
      (SbusRx_feed SbusRx.init bs).buf_.getD 0 0 = 0x0F) ∧
    (∀ cur i, SbusRx_writeIndex (SbusRx_feed SbusRx.init bs) cur = some i →
      i < 25 ∧ i < (SbusRx_feed SbusRx.init bs).buf_.length ∧
      i = (SbusRx_feed SbusRx.init bs).state_ ∧
      (SbusRx_feed SbusRx.init (bs ++ [cur])).buf_
        = (SbusRx_feed SbusRx.init bs).buf_.set i cur ∧
      (SbusRx_feed SbusRx.init (bs ++ [cur])).state_ = i + 1) ∧
    (∀ cur, SbusRx_writeIndex (SbusRx_feed SbusRx.init bs) cur = none →
      (SbusRx_feed SbusRx.init (bs ++ [cur])).buf_ = (SbusRx_feed SbusRx.init bs).buf_) := by
  have hinit : SbusRx.init.state_ ≤ 25 ∧ SbusRx.init.buf_.length = 25 ∧
      (1 ≤ SbusRx.init.state_ → SbusRx.init.buf_.getD 0 0 = 0x0F) :=
    ⟨by decide, by decide, fun h => absurd h (by decide)⟩
  obtain ⟨h1, h2, h3⟩ := SbusRx_feed_bounds SbusRx.init bs hinit
  refine ⟨rfl, h1, h2, h3, ?_, ?_⟩
  · intro cur i hi
    obtain ⟨e1, e2, e3⟩ := (SbusRx_step_write (SbusRx_feed SbusRx.init bs) cur).1 i hi
    have hb := (SbusRx_feed_bounds SbusRx.init (bs ++ [cur]) hinit).1
    rw [SbusRx_feed_append, SbusRx_feed_cons, SbusRx_feed_nil]
    rw [SbusRx_feed_append, SbusRx_feed_cons, SbusRx_feed_nil] at hb
    refine ⟨by omega, by omega, e1, e2, e3⟩
  · intro cur hn
    rw [SbusRx_feed_append, SbusRx_feed_cons, SbusRx_feed_nil]
    exact (SbusRx_step_write (SbusRx_feed SbusRx.init bs) cur).2 hn

/-! ## Facts about the centred channels -/

theorem centerAll_eq (cfg : TrackerSettings) (cv : List Nat) (h : cv.length = 16) :
    centerAll cfg cv = List.replicate 16 (cfg.PPM_CENTER % 65536) := by
  obtain ⟨c0, c1, c2, c3, c4, c5, c6, c7, c8, c9, c10, c11, c12, c13, c14, c15, rfl⟩ :=
    list_length_16 cv h
  rfl

theorem BTHeadStart_chan_vals (cfg : TrackerSettings) (a : Bool) (s : BtState) :
    (BTHeadStart cfg a s).chan_vals = centerAll cfg s.chan_vals := by
  unfold BTHeadStart
  dsimp only
  split_ifs <;> dsimp only

theorem BTHeadStart_centred (cfg : TrackerSettings) (a : Bool) (s : BtState)
    (h : Centred cfg s) : Centred cfg (BTHeadStart cfg a s) := by
  obtain ⟨hl, _⟩ := h
  rw [Centred, BTHeadStart_chan_vals, centerAll_eq cfg _ hl]
  refine ⟨List.length_replicate _ _, fun i hi _ => ?_⟩
  interval_cases i <;> rfl

theorem BTHeadSetChannel_centred (cfg : TrackerSettings) (c v : Nat) (s : BtState)
    (h : Centred cfg s) : Centred cfg (BTHeadSetChannel cfg c v s) := by
  obtain ⟨hl, hc⟩ := h
  by_cases hcb : c ≥ BT_CHANNELS
  · have e : BTHeadSetChannel cfg c v s = s := by
      unfold BTHeadSetChannel
      rw [if_pos hcb]
    rw [e]
    exact ⟨hl, hc⟩
  · have hc16 : c < 16 := by simp only [BT_CHANNELS] at hcb; omega
    refine ⟨by rw [BTHeadSetChannel_length, hl], fun i hi hbit => ?_⟩
    rw [BTHeadSetChannel_bit cfg c v i s hi] at hbit
    rw [BTHeadSetChannel_val cfg c v i s hc16 hl]
    by_cases hic : i = c
    · subst hic
      rw [if_pos rfl] at hbit ⊢
      have hv : v = 0 := by simpa using hbit
      rw [if_pos hv]
    · have hci : ¬ c = i := fun e => hic e.symm
      rw [if_neg hci] at hbit
      rw [if_neg hic]
      exact hc i hi hbit

theorem runHead_centred (cfg : TrackerSettings) (ops : List HeadOp) (s : BtState)
    (h : Centred cfg s) : Centred cfg (runHead cfg s ops) := by
  induction ops generalizing s with
  | nil => exact h
  | cons op ops ih =>
    cases op with
    | start a =>
      simp only [runHead, List.foldl_cons] at ih ⊢
      exact ih _ (BTHeadStart_centred cfg a s h)
    | setChannel c v =>
      simp only [runHead, List.foldl_cons] at ih ⊢
      exact ih _ (BTHeadSetChannel_centred cfg c v s h)

/-! ## Claims about the centred channels -/

/-- Claim C26: in every state reached from the initial state (mask `0xFFFF`) by a sequence of
`BTHeadStart` and `BTHeadSetChannel` calls, every channel `0..15` whose mask bit is clear
holds `PPM_CENTER` (a value that fits the 16-bit slot); and a `BTHeadSetChannel` call with
an index `≥ BT_CHANNELS` changes nothing, neither a channel value nor the mask. -/
theorem C26_clear_bit_holds_centre (cfg : TrackerSettings) (lineLength : Nat)
    (hc : cfg.PPM_CENTER < 65536) (ops : List HeadOp) :
    (BtState.init lineLength).ovridech = 0xFFFF ∧
    (∀ i, i < 16 →
      (runHead cfg (BtState.init lineLength) ops).ovridech.testBit i = false →
      (runHead cfg (BtState.init lineLength) ops).chan_vals.getD i 0 = cfg.PPM_CENTER) ∧
    (∀ (s : BtState) (channel value : Nat), channel ≥ BT_CHANNELS →
      BTHeadSetChannel cfg channel value s = s ∧
      (BTHeadSetChannel cfg channel value s).chan_vals = s.chan_vals ∧
      (BTHeadSetChannel cfg channel value s).ovridech = s.ovridech) := by
  have hinit : Centred cfg (BtState.init lineLength) := by
    refine ⟨rfl, fun i hi hbit => ?_⟩
    exfalso
    have h16 : (0xFFFF : Nat) = 2 ^ 16 - 1 := by norm_num
    have : (BtState.init lineLength).ovridech.testBit i = true := by
      show (0xFFFF : Nat).testBit i = true
      rw [h16, Nat.testBit_two_pow_sub_one]
      simpa using hi
    rw [this] at hbit
    exact Bool.noConfusion hbit
  refine ⟨rfl, fun i hi hbit => ?_, fun s channel value hch => ?_⟩
  · rw [(runHead_centred cfg ops _ hinit).2 i hi hbit]
    exact Nat.mod_eq_of_lt hc
  · have e : BTHeadSetChannel cfg channel value s = s := by
      unfold BTHeadSetChannel
      rw [if_pos hch]
    exact ⟨e, by rw [e], by rw [e]⟩

/-- Instance of C26: a start, channel 3 set to 1700, then channel 3 released with 0 and
channel 5 set to 1200. -/
theorem C26_clear_bit_holds_centre_witness :
    (BtState.init 52).ovridech = 0xFFFF ∧
    (∀ i, i < 16 →
      (runHead exampleSettings (BtState.init 52)
        [HeadOp.start false, HeadOp.setChannel 3 1700, HeadOp.setChannel 3 0,
         HeadOp.setChannel 5 1200]).ovridech.testBit i = false →
      (runHead exampleSettings (BtState.init 52)
        [HeadOp.start false, HeadOp.setChannel 3 1700, HeadOp.setChannel 3 0,
         HeadOp.setChannel 5 1200]).chan_vals.getD i 0 = exampleSettings.PPM_CENTER) ∧
    (∀ (s : BtState) (channel value : Nat), channel ≥ BT_CHANNELS →
      BTHeadSetChannel exampleSettings channel value s = s ∧
      (BTHeadSetChannel exampleSettings channel value s).chan_vals = s.chan_vals ∧
      (BTHeadSetChannel exampleSettings channel value s).ovridech = s.ovridech) :=
  C26_clear_bit_holds_centre exampleSettings 52 (by decide)
    [HeadOp.start false, HeadOp.setChannel 3 1700, HeadOp.setChannel 3 0,
     HeadOp.setChannel 5 1200]

/-! ## Claims about the range of the sleep of bt_Thread -/

/-- Claim C27 as stated fails: at a period of 864721176353293 and an elapsed time of
259416352905988 the rounded product `BT_PERIOD * 0.7` equals the remainder, the test fails
and the sleep is the remainder 605304823447305, which is below 70% of the period. -/
theorem C27_rounded_product_counterexample :
    (0 : Int) < 864721176353293 ∧ (0 : Int) ≤ 259416352905988 ∧
    roundDoubleInt (roundDoubleInt 864721176353293 * (DOUBLE_0_7 : Int))
      = 605304823447305 * 2 ^ 53 ∧
    bt_Thread_sleep 864721176353293 259416352905988 = 605304823447305 ∧
    ¬ (7 * (864721176353293 : Int)
        ≤ 10 * bt_Thread_sleep 864721176353293 259416352905988) ∧
    bt_Thread_sleep 864721176353293 259416352905988
      = 864721176353293 - 259416352905988 ∧
    ¬ (7 * (864721176353293 : Int) ≤ 10 * (864721176353293 - 259416352905988)) := by
  decide

/-- Claim C27, as amended: for every period `P > 0` with `11 * P < 2 ^ 53` and elapsed time
`e ≥ 0`, also when `e > P`, the computed sleep is at least 70% of `P` and at most `P`, hence
positive; it is `P - e` exactly when `P - e` is at least 70% of `P`, and `P` otherwise. -/
theorem C27_sleep_between_70_percent_and_period (P e : Int) (hP : 0 < P)
    (hB : 11 * P < 2 ^ 53) (he : 0 ≤ e) :
    7 * P ≤ 10 * bt_Thread_sleep P e ∧
    bt_Thread_sleep P e ≤ P ∧
    0 < bt_Thread_sleep P e ∧
    (bt_Thread_sleep P e = P - e ↔ 7 * P ≤ 10 * (P - e)) ∧
    (¬ (7 * P ≤ 10 * (P - e)) → bt_Thread_sleep P e = P) := by
  rw [bt_Thread_sleep_exact P e hP hB he]
  by_cases h : 10 * (P - e) < 7 * P
  · rw [if_pos h]
    refine ⟨by omega, le_refl _, hP, ?_, fun _ => rfl⟩
    constructor <;> intro h2 <;> omega
  · rw [if_neg h]
    refine ⟨by omega, by omega, by omega, ?_, fun h2 => by omega⟩
    constructor <;> intro _
    · omega
    · rfl

/-- Instance of the amended C27 at an elapsed time beyond the period. -/
theorem C27_sleep_between_70_percent_and_period_witness :
    7 * (100 : Int) ≤ 10 * bt_Thread_sleep 100 250 ∧
    bt_Thread_sleep 100 250 ≤ 100 ∧
    0 < bt_Thread_sleep 100 250 ∧
    (bt_Thread_sleep 100 250 = 100 - 250 ↔ 7 * (100 : Int) ≤ 10 * (100 - 250)) ∧
    (¬ (7 * (100 : Int) ≤ 10 * (100 - 250)) → bt_Thread_sleep 100 250 = 100) :=
  C27_sleep_between_70_percent_and_period 100 250 (by decide) (by decide) (by decide)

end HeadTracker
